import Mathlib

/-!
Shallow embedding of the sign/verify orchestration pipeline of the
notaryproject notation-go library, together with theorems checking the
natural-language specification against it.

Conventions of the embedding:
* Go byte slices are `List Nat`; Go `int`/`int64` values compared against
  size limits are `Int`.
* Go maps with string keys are association lists `List (String × String)`;
  `lookupKey` is map indexing.
* External collaborators (the oras registry transport, JSON unmarshalling,
  crypto primitives, the file system) are oracle functions supplied as
  structure fields; the code under verification is translated statement by
  statement from the Go source.
* Side effects that the specification talks about (resolving a reference,
  fetching a signature blob, invoking the verifier or signer, pushing a
  signature) are recorded in an explicit event trace.
-/

namespace Notary

/-- Raw bytes of a blob or envelope. -/
abbrev Bytes := List Nat

/-- OCI descriptor (ocispec.Descriptor restricted to the fields the flows
read): media type, digest, size and annotations. -/
structure Descriptor where
  mediaType : String
  digestStr : String
  size : Int
  annotations : List (String × String)
deriving DecidableEq

/-- The zero ocispec.Descriptor{} value returned on error paths. -/
def emptyDescriptor : Descriptor :=
  { mediaType := "", digestStr := "", size := 0, annotations := [] }

/-- Map lookup on an association list (Go `m[k]`, first binding wins). -/
def lookupKey (m : List (String × String)) (k : String) : Option String :=
  (m.find? (fun p => p.1 == k)).map Prod.snd

/-- registry/repository.go: maxBlobSizeLimit = 32 * 1024 * 1024. -/
def maxBlobSizeLimit : Int := 32 * 1024 * 1024

/-- registry/repository.go: maxManifestSizeLimit = 4 * 1024 * 1024. -/
def maxManifestSizeLimit : Int := 4 * 1024 * 1024

/-- ocispec.MediaTypeArtifactManifest. -/
def mediaTypeArtifactManifest : String := "application/vnd.oci.artifact.manifest.v1+json"

/-- ocispec.MediaTypeImageManifest. -/
def mediaTypeImageManifest : String := "application/vnd.oci.image.manifest.v1+json"

/-- Oracles for the external collaborators used by the repository client:
the manifest store fetch (content.FetchAll on Manifests()), the two JSON
unmarshallings (into ocispec.Artifact giving `.Blobs`, and ocispec.Manifest
giving `.Layers`), and the blob store fetch (content.FetchAll on Blobs()). -/
structure RegistryWorld where
  fetchManifest : Descriptor → Except String Bytes
  parseArtifactManifest : Bytes → Except String (List Descriptor)
  parseImageManifest : Bytes → Except String (List Descriptor)
  fetchBlob : Descriptor → Except String Bytes

/-- registry/repository.go getSignatureBlobsDesc: size-check the signature
manifest descriptor, fetch the manifest, and extract its signature blob
descriptors according to the manifest media type. -/
def getSignatureBlobsDesc (w : RegistryWorld) (sigManifestDesc : Descriptor) :
    Except String (List Descriptor) :=
  if maxManifestSizeLimit < sigManifestDesc.size then
    Except.error ("signature manifest too large: " ++ toString sigManifestDesc.size ++ " bytes")
  else
    match w.fetchManifest sigManifestDesc with
    | Except.error e => Except.error e
    | Except.ok manifestJSON =>
      if sigManifestDesc.mediaType = mediaTypeArtifactManifest then
        w.parseArtifactManifest manifestJSON
      else if sigManifestDesc.mediaType = mediaTypeImageManifest then
        w.parseImageManifest manifestJSON
      else
        Except.error ("sigManifestDesc.MediaType requires \"" ++ mediaTypeArtifactManifest ++
          "\" or \"" ++ mediaTypeImageManifest ++ "\", got \"" ++ sigManifestDesc.mediaType ++ "\"")

deriving instance DecidableEq for Except

/-- Result of FetchSignatureBlob together with the trace of signature blob
fetches it performed against the blob store. -/
structure FetchResult where
  value : Except String (Bytes × Descriptor)
  blobFetches : List Descriptor
deriving DecidableEq

/-- registry/repository.go FetchSignatureBlob: obtain the signature blob
descriptors, require exactly one, enforce the blob size limit, then fetch
the blob. -/
def FetchSignatureBlob (w : RegistryWorld) (desc : Descriptor) : FetchResult :=
  match getSignatureBlobsDesc w desc with
  | Except.error e => { value := Except.error e, blobFetches := [] }
  | Except.ok signatureBlobs =>
    match signatureBlobs with
    | [sigDesc] =>
      if maxBlobSizeLimit < sigDesc.size then
        { value := Except.error ("signature blob too large: " ++ toString sigDesc.size ++ " bytes")
          blobFetches := [] }
      else
        match w.fetchBlob sigDesc with
        | Except.error e => { value := Except.error e, blobFetches := [sigDesc] }
        | Except.ok sigBlob => { value := Except.ok (sigBlob, sigDesc), blobFetches := [sigDesc] }
    | _ =>
      { value := Except.error ("signature manifest requries exactly one signature envelope blob, got "
          ++ toString signatureBlobs.length)
        blobFetches := [] }

/-- Whether an Except value is an error. -/
def isError {ε α : Type} : Except ε α → Bool
  | Except.error _ => true
  | Except.ok _ => false

theorem isError_error {ε α : Type} (e : ε) : isError (Except.error e : Except ε α) = true := rfl

/-- C4: FetchSignatureBlob returns a hard error and fetches no blob whenever
the signature-manifest descriptor is larger than 4 MiB, or its media type is
neither the OCI artifact manifest type (whose blobs are used) nor the OCI
image manifest type (whose layers are used), or the manifest does not
reference exactly one signature blob, or the single blob descriptor is larger
than 32 MiB; only when all checks pass is the signature blob fetched and
returned with its descriptor. -/
theorem C4_fetch_signature_blob_guards (w : RegistryWorld) (d : Descriptor) :
    (maxManifestSizeLimit < d.size →
      isError (FetchSignatureBlob w d).value = true ∧ (FetchSignatureBlob w d).blobFetches = []) ∧
    (d.mediaType ≠ mediaTypeArtifactManifest → d.mediaType ≠ mediaTypeImageManifest →
      isError (FetchSignatureBlob w d).value = true ∧ (FetchSignatureBlob w d).blobFetches = []) ∧
    (∀ j L, d.size ≤ maxManifestSizeLimit → w.fetchManifest d = Except.ok j →
      ((d.mediaType = mediaTypeArtifactManifest ∧ w.parseArtifactManifest j = Except.ok L) ∨
       (d.mediaType = mediaTypeImageManifest ∧ w.parseImageManifest j = Except.ok L)) →
      getSignatureBlobsDesc w d = Except.ok L) ∧
    (∀ L, getSignatureBlobsDesc w d = Except.ok L → L.length ≠ 1 →
      isError (FetchSignatureBlob w d).value = true ∧ (FetchSignatureBlob w d).blobFetches = []) ∧
    (∀ s, getSignatureBlobsDesc w d = Except.ok [s] → maxBlobSizeLimit < s.size →
      isError (FetchSignatureBlob w d).value = true ∧ (FetchSignatureBlob w d).blobFetches = []) ∧
    (∀ s b, getSignatureBlobsDesc w d = Except.ok [s] → s.size ≤ maxBlobSizeLimit →
      w.fetchBlob s = Except.ok b →
      (FetchSignatureBlob w d).value = Except.ok (b, s) ∧
      (FetchSignatureBlob w d).blobFetches = [s]) := by
  refine ⟨?_, ?_, ?_, ?_, ?_, ?_⟩
  · intro hsize
    simp only [FetchSignatureBlob, getSignatureBlobsDesc, if_pos hsize]
    refine ⟨?_, ?_⟩ <;> trivial
  · intro hart himg
    by_cases hsize : maxManifestSizeLimit < d.size
    · simp only [FetchSignatureBlob, getSignatureBlobsDesc, if_pos hsize]
      refine ⟨?_, ?_⟩ <;> trivial
    · cases hfm : w.fetchManifest d with
      | error e =>
        simp only [FetchSignatureBlob, getSignatureBlobsDesc, if_neg hsize, hfm]
        refine ⟨?_, ?_⟩ <;> trivial
      | ok j =>
        simp only [FetchSignatureBlob, getSignatureBlobsDesc, if_neg hsize, hfm,
          if_neg hart, if_neg himg]
        refine ⟨?_, ?_⟩ <;> trivial
  · intro j L hsize hfm hmedia
    rcases hmedia with ⟨hmt, hp⟩ | ⟨hmt, hp⟩
    · simp only [getSignatureBlobsDesc, if_neg (not_lt.mpr hsize), hfm, if_pos hmt, hp]
    · have hart : d.mediaType ≠ mediaTypeArtifactManifest := by
        rw [hmt]; decide
      simp only [getSignatureBlobsDesc, if_neg (not_lt.mpr hsize), hfm, if_neg hart,
        if_pos hmt, hp]
  · intro L hget hlen
    match L, hlen with
    | [], hlen =>
      simp only [FetchSignatureBlob, hget]
      refine ⟨?_, ?_⟩ <;> trivial
    | [s], hlen => exact absurd rfl hlen
    | a :: b :: r, hlen =>
      simp only [FetchSignatureBlob, hget]
      refine ⟨?_, ?_⟩ <;> trivial
  · intro s hget hbig
    simp only [FetchSignatureBlob, hget, if_pos hbig]
    refine ⟨?_, ?_⟩ <;> trivial
  · intro s b hget hsmall hfb
    simp only [FetchSignatureBlob, hget, if_neg (not_lt.mpr hsmall), hfb]
    refine ⟨?_, ?_⟩ <;> trivial

/-- Concrete signature manifest descriptor used in the C4 witness. -/
def c4ManifestDesc : Descriptor :=
  { mediaType := mediaTypeArtifactManifest, digestStr := "sha256:mmm", size := 100, annotations := [] }

/-- Concrete signature blob descriptor used in the C4 witness. -/
def c4BlobDesc : Descriptor :=
  { mediaType := "application/jose+json", digestStr := "sha256:bbb", size := 10, annotations := [] }

/-- Concrete registry world used in the C4 witness. -/
def c4World : RegistryWorld :=
  { fetchManifest := fun _ => Except.ok [123]
    parseArtifactManifest := fun _ => Except.ok [c4BlobDesc]
    parseImageManifest := fun _ => Except.ok []
    fetchBlob := fun _ => Except.ok [7, 8, 9] }

/-- C4 witness: on a well-formed artifact-manifest world the blob is fetched
and returned with its descriptor, and an oversized manifest descriptor is a
hard error with no blob fetch. -/
theorem C4_fetch_signature_blob_guards_witness :
    ((FetchSignatureBlob c4World c4ManifestDesc).value = Except.ok ([7, 8, 9], c4BlobDesc) ∧
      (FetchSignatureBlob c4World c4ManifestDesc).blobFetches = [c4BlobDesc]) ∧
    (isError (FetchSignatureBlob c4World { c4ManifestDesc with size := maxManifestSizeLimit + 1 }).value = true ∧
      (FetchSignatureBlob c4World { c4ManifestDesc with size := maxManifestSizeLimit + 1 }).blobFetches = []) := by
  constructor
  · exact (C4_fetch_signature_blob_guards c4World c4ManifestDesc).2.2.2.2.2 c4BlobDesc [7, 8, 9]
      (by rfl) (by decide) (by rfl)
  · exact (C4_fetch_signature_blob_guards c4World
      { c4ManifestDesc with size := maxManifestSizeLimit + 1 }).1 (by decide)

/-- An x509 certificate as consumed by the trust-store loader: whether its
BasicConstraint CA flag is set, whether the self-signature check
(CheckSignatureFrom against itself plus RawSubject = RawIssuer) passes, and
its subject (used in error messages). The crypto itself is external. -/
structure TrustCert where
  isCA : Bool
  selfSignedOk : Bool
  subject : String
deriving DecidableEq

/-- verification isSelfSigned: CheckSignatureFrom(cert) succeeds and the raw
subject equals the raw issuer; both are modelled by the selfSignedOk field. -/
def isSelfSigned (cert : TrustCert) : Bool := cert.selfSignedOk

/-- verification validateCerts: every certificate file must be non-empty, a
single-certificate file must hold a self-signed or CA certificate, and a
multi-certificate file must hold only CA certificates. -/
def validateCerts (certs : List TrustCert) (path : String) : Except String Unit :=
  match certs with
  | [] =>
    Except.error ("could not parse a certificate from \"" ++ path ++
      "\", every file in a trust store must have a PEM or DER certificate in it")
  | [c] =>
    if !(isSelfSigned c) && !c.isCA then
      Except.error ("single certificate from \"" ++ path ++
        "\" is not a self-signed certificate or CA certificate")
    else Except.ok ()
  | _ :: _ :: _ =>
    match certs.find? (fun c => !c.isCA) with
    | some c =>
      Except.error ("certificate with subject \"" ++ c.subject ++ "\" from file \"" ++ path ++
        "\" is not a CA certificate, only CA certificates (BasicConstraint CA=True) are allowed")
    | none => Except.ok ()

/-- A certificate file of a trust-store directory, already parsed: file name
plus the certificates corex509.ReadCertificateFile returned for it. -/
structure TrustStoreFile where
  name : String
  certs : List TrustCert
deriving DecidableEq

/-- The per-file loop of LoadX509TrustStore: validate each file's
certificates and accumulate them, then reject an empty store. -/
def loadFiles (path : String) (acc : List TrustCert) :
    List TrustStoreFile → Except String (List TrustCert)
  | [] =>
    if acc.length < 1 then
      Except.error ("trust store \"" ++ path ++ "\" has no x509 certificates")
    else Except.ok acc
  | f :: rest =>
    match validateCerts f.certs (path ++ "/" ++ f.name) with
    | Except.error e => Except.error e
    | Except.ok _ => loadFiles path (acc ++ f.certs) rest

/-- verification LoadX509TrustStore, certificate-level core. The directory
scanning, symlink/regular-file checks and certificate parsing are external
(os, filepath, corex509); the model receives the per-file parsed certificate
lists in directory order and returns the loaded store's certificates. -/
def LoadX509TrustStore (path : String) (files : List TrustStoreFile) :
    Except String (List TrustCert) :=
  loadFiles path [] files

theorem validateCerts_ok_ne_nil {certs : List TrustCert} {p : String}
    (h : validateCerts certs p = Except.ok ()) : certs ≠ [] := by
  intro hnil
  subst hnil
  simp [validateCerts] at h

theorem validateCerts_ok_single {c : TrustCert} {p : String}
    (h : validateCerts [c] p = Except.ok ()) :
    isSelfSigned c = true ∨ c.isCA = true := by
  by_cases hss : isSelfSigned c = true
  · exact Or.inl hss
  · by_cases hca : c.isCA = true
    · exact Or.inr hca
    · exfalso
      have : (!(isSelfSigned c) && !c.isCA) = true := by
        simp [Bool.not_eq_true] at hss hca
        simp [hss, hca]
      simp [validateCerts, this] at h

theorem validateCerts_ok_multi {certs : List TrustCert} {p : String}
    (h : validateCerts certs p = Except.ok ()) (hlen : 2 ≤ certs.length) :
    ∀ c ∈ certs, c.isCA = true := by
  match certs, hlen with
  | a :: b :: r, _ =>
    intro c hc
    cases hfind : (a :: b :: r).find? (fun c => !c.isCA) with
    | some bad => simp [validateCerts, hfind] at h
    | none =>
      have := List.find?_eq_none.mp hfind c hc
      simpa using this

theorem loadFiles_ok_validated {path : String} :
    ∀ (files : List TrustStoreFile) (acc store : List TrustCert),
      loadFiles path acc files = Except.ok store →
      ∀ f ∈ files, validateCerts f.certs (path ++ "/" ++ f.name) = Except.ok () := by
  intro files
  induction files with
  | nil => intro acc store _ f hf; exact absurd hf (List.not_mem_nil f)
  | cons g rest ih =>
    intro acc store h f hf
    have hsplit : validateCerts g.certs (path ++ "/" ++ g.name) = Except.ok () ∧
        loadFiles path (acc ++ g.certs) rest = Except.ok store := by
      cases hv : validateCerts g.certs (path ++ "/" ++ g.name) with
      | error e => simp [loadFiles, hv] at h
      | ok u => cases u; exact ⟨rfl, by simpa [loadFiles, hv] using h⟩
    rcases List.mem_cons.mp hf with hfg | hfr
    · subst hfg; exact hsplit.1
    · exact ih (acc ++ g.certs) store hsplit.2 f hfr

theorem loadFiles_ok_store {path : String} :
    ∀ (files : List TrustStoreFile) (acc store : List TrustCert),
      loadFiles path acc files = Except.ok store →
      store = acc ++ (files.map TrustStoreFile.certs).flatten ∧ 1 ≤ store.length := by
  intro files
  induction files with
  | nil =>
    intro acc store h
    by_cases hlen : acc.length < 1
    · simp [loadFiles, hlen] at h
    · have : store = acc := by simpa [loadFiles, hlen] using h.symm
      subst this
      exact ⟨by simp, Nat.le_of_not_lt hlen⟩
  | cons g rest ih =>
    intro acc store h
    cases hv : validateCerts g.certs (path ++ "/" ++ g.name) with
    | error e => simp [loadFiles, hv] at h
    | ok u =>
      cases u
      have h2 : loadFiles path (acc ++ g.certs) rest = Except.ok store := by
        simpa [loadFiles, hv] using h
      have := ih (acc ++ g.certs) store h2
      exact ⟨by simpa [List.append_assoc] using this.1, this.2⟩

theorem mem_length_le_join {α : Type} (l : List α) (L : List (List α)) (h : l ∈ L) :
    l.length ≤ L.flatten.length := by
  induction L with
  | nil => exact absurd h (List.not_mem_nil l)
  | cons a t ih =>
    rcases List.mem_cons.mp h with hl | hl
    · subst hl; simp
    · have := ih hl
      simp only [List.flatten, List.length_append]
      omega

/-- A self-signed certificate without the CA flag, used by the C7 counterexample. -/
def c7Cert : TrustCert := { isCA := false, selfSignedOk := true, subject := "CN=leaf" }

/-- Two single-certificate files, each holding the self-signed non-CA
certificate, used by the C7 counterexample. -/
def c7Files : List TrustStoreFile :=
  [{ name := "a.crt", certs := [c7Cert] }, { name := "b.crt", certs := [c7Cert] }]

/-- C7 counterexample: LoadX509TrustStore accepts a store built from two
single-certificate files holding self-signed non-CA certificates, so the
loaded store has two certificates of which none is a CA certificate —
refuting the claim that a store with two or more certificates holds only CA
certificates. -/
theorem C7_counterexample :
    LoadX509TrustStore "truststore/x509/ca/test" c7Files = Except.ok [c7Cert, c7Cert] ∧
    2 ≤ ([c7Cert, c7Cert] : List TrustCert).length ∧
    c7Cert.isCA = false := by
  refine ⟨?_, by decide, rfl⟩
  rfl

/-- C7 (amended): every store accepted by LoadX509TrustStore is non-empty,
and if it holds exactly one certificate that certificate is self-signed or a
CA certificate; the CA-only invariant for larger collections holds per
certificate file: each file is non-empty, a single-certificate file holds a
self-signed or CA certificate, and a file with two or more certificates
holds only CA certificates. -/
theorem C7_trust_store_invariants (path : String) (files : List TrustStoreFile)
    (store : List TrustCert) (h : LoadX509TrustStore path files = Except.ok store) :
    store ≠ [] ∧
    (store.length = 1 → ∀ c ∈ store, isSelfSigned c = true ∨ c.isCA = true) ∧
    (∀ f ∈ files, f.certs ≠ [] ∧
      (f.certs.length = 1 → ∀ c ∈ f.certs, isSelfSigned c = true ∨ c.isCA = true) ∧
      (2 ≤ f.certs.length → ∀ c ∈ f.certs, c.isCA = true)) := by
  have hval := loadFiles_ok_validated files [] store h
  have hstore := loadFiles_ok_store files [] store h
  have hstoreEq : store = (files.map TrustStoreFile.certs).flatten := by
    simpa using hstore.1
  refine ⟨?_, ?_, ?_⟩
  · intro hnil
    rw [hnil] at hstore
    simp at hstore
  · intro hlen c hc
    rw [hstoreEq] at hc
    rcases List.mem_flatten.mp hc with ⟨l, hl, hcl⟩
    rcases List.mem_map.mp hl with ⟨f, hf, hfl⟩
    have hvf := hval f hf
    have hne : f.certs ≠ [] := validateCerts_ok_ne_nil hvf
    have hle : l.length ≤ store.length := by
      rw [hstoreEq]
      exact mem_length_le_join l (files.map TrustStoreFile.certs) hl
    rw [hlen] at hle
    have hlen1 : f.certs.length = 1 := by
      rw [← hfl] at hle
      have : 1 ≤ f.certs.length := by
        cases hfc : f.certs with
        | nil => exact absurd hfc hne
        | cons a t => simp
      omega
    rcases List.length_eq_one.mp hlen1 with ⟨a, ha⟩
    have hca : c = a := by
      rw [← hfl, ha] at hcl
      simpa using hcl
    rw [hca]
    rw [ha] at hvf
    exact validateCerts_ok_single hvf
  · intro f hf
    have hvf := hval f hf
    refine ⟨validateCerts_ok_ne_nil hvf, ?_, validateCerts_ok_multi hvf⟩
    intro hlen1 c hc
    rcases List.length_eq_one.mp hlen1 with ⟨a, ha⟩
    have hca : c = a := by rw [ha] at hc; simpa using hc
    rw [ha] at hvf
    rw [hca]
    exact validateCerts_ok_single hvf

/-- C7 witness: the amended invariants evaluated on the concrete two-file
store accepted in the counterexample scenario. -/
theorem C7_trust_store_invariants_witness :
    ([c7Cert, c7Cert] : List TrustCert) ≠ [] ∧
    (([c7Cert, c7Cert] : List TrustCert).length = 1 →
      ∀ c ∈ ([c7Cert, c7Cert] : List TrustCert), isSelfSigned c = true ∨ c.isCA = true) ∧
    (∀ f ∈ c7Files, f.certs ≠ [] ∧
      (f.certs.length = 1 → ∀ c ∈ f.certs, isSelfSigned c = true ∨ c.isCA = true) ∧
      (2 ≤ f.certs.length → ∀ c ∈ f.certs, c.isCA = true)) :=
  C7_trust_store_invariants "truststore/x509/ca/test" c7Files [c7Cert, c7Cert] (by rfl)

/-- Map update on an association list (Go `m[k] = v`): replace the binding if
the key is present, otherwise add it. -/
def mapSet : List (String × String) → String → String → List (String × String)
  | [], k, v => [(k, v)]
  | p :: rest, k, v => if p.1 == k then (k, v) :: rest else p :: mapSet rest k v

theorem lookupKey_cons (p : String × String) (m : List (String × String)) (k : String) :
    lookupKey (p :: m) k = if (p.1 == k) = true then some p.2 else lookupKey m k := by
  by_cases h : (p.1 == k) = true
  · rw [if_pos h]
    simp [lookupKey, List.find?_cons, h]
  · have hb : (p.1 == k) = false := by simpa using h
    rw [if_neg h]
    simp [lookupKey, List.find?_cons, hb]

theorem lookupKey_mapSet_self (m : List (String × String)) (k v : String) :
    lookupKey (mapSet m k v) k = some v := by
  induction m with
  | nil =>
    show lookupKey [(k, v)] k = some v
    rw [lookupKey_cons, if_pos (by simp)]
  | cons p rest ih =>
    show lookupKey (if p.1 == k then (k, v) :: rest else p :: mapSet rest k v) k = some v
    by_cases h : (p.1 == k) = true
    · rw [if_pos h, lookupKey_cons, if_pos (by simp)]
    · rw [if_neg h, lookupKey_cons, if_neg h]
      exact ih

theorem lookupKey_mapSet_other (m : List (String × String)) (k v k2 : String)
    (h : k2 ≠ k) : lookupKey (mapSet m k v) k2 = lookupKey m k2 := by
  have hkk2 : ¬((k == k2) = true) := by
    simp only [beq_iff_eq]
    exact fun he => h he.symm
  induction m with
  | nil =>
    show lookupKey [(k, v)] k2 = lookupKey [] k2
    rw [lookupKey_cons, if_neg hkk2]
  | cons p rest ih =>
    show lookupKey (if p.1 == k then (k, v) :: rest else p :: mapSet rest k v) k2
      = lookupKey (p :: rest) k2
    by_cases hp : (p.1 == k) = true
    · have hpk : p.1 = k := by simpa using hp
      have hp2 : ¬((p.1 == k2) = true) := by
        simp only [hpk, beq_iff_eq]
        exact fun he => h he.symm
      rw [if_pos hp, lookupKey_cons, if_neg hkk2, lookupKey_cons, if_neg hp2]
    · rw [if_neg hp, lookupKey_cons, lookupKey_cons]
      by_cases hp2 : (p.1 == k2) = true
      · rw [if_pos hp2, if_pos hp2]
      · rw [if_neg hp2, if_neg hp2]
        exact ih

/-- A certificate as it appears in a signer info certificate chain: its raw
DER bytes (cert.Raw). -/
structure SignCert where
  raw : Bytes
deriving DecidableEq

/-- signature.SignerInfo restricted to the field generateAnnotations reads:
the certificate chain, leaf first. -/
structure SignerInfo where
  certificateChain : List SignCert
deriving DecidableEq

/-- The reserved thumbprint annotation key. -/
def annotationX509ChainThumbprint : String := "io.cncf.notary.x509chain.thumbprint#S256"

/-- Go json.Marshal of a []string of hex digests: the nil slice (an empty
chain produces a nil thumbprints slice) encodes to "null"; a non-empty slice
encodes to a JSON array of the quoted strings (hex digests contain no
characters needing escaping). json.Marshal cannot fail on a []string, so the
error branch of generateAnnotations is dead. -/
def jsonStringArray (l : List String) : String :=
  match l with
  | [] => "null"
  | _ => "[" ++ String.intercalate "," (l.map (fun s => "\"" ++ s ++ "\"")) ++ "]"

/-- generateAnnotations: hex SHA-256 thumbprints of each chain certificate's
raw bytes, leaf first, JSON-encoded and stored under the thumbprint key in
the plugin-provided annotation map. The composite hex(SHA256(bytes)) is the
external crypto primitive, passed as the sha256hex oracle. -/
def generateAnnotations (sha256hex : Bytes → String) (signerInfo : SignerInfo)
    (annotations : List (String × String)) : List (String × String) :=
  let thumbprints := signerInfo.certificateChain.map (fun cert => sha256hex cert.raw)
  mapSet annotations annotationX509ChainThumbprint (jsonStringArray thumbprints)

/-- C8 counterexample: when the plugin-provided annotations already bind the
thumbprint key, generateAnnotations overwrites that binding, so not every
plugin-provided annotation entry is preserved unchanged. -/
theorem C8_counterexample :
    lookupKey (generateAnnotations (fun _ => "00") { certificateChain := [{ raw := [] }] }
        [(annotationX509ChainThumbprint, "x")]) annotationX509ChainThumbprint
      = some "[\"00\"]" ∧
    ("[\"00\"]" : String) ≠ "x" := by
  exact ⟨by rfl, by decide⟩

/-- C8 (amended): the annotations returned by generateAnnotations bind the
key io.cncf.notary.x509chain.thumbprint#S256 to the JSON encoding of the
list of hex SHA-256 thumbprints of the chain certificates' raw bytes in
chain order, and every plugin-provided annotation entry at any other key is
preserved unchanged; a plugin-provided entry at the thumbprint key itself is
overwritten. -/
theorem C8_generate_annotations_thumbprint (sha256hex : Bytes → String)
    (signerInfo : SignerInfo) (annotations : List (String × String)) :
    (lookupKey (generateAnnotations sha256hex signerInfo annotations)
        annotationX509ChainThumbprint
      = some (jsonStringArray
          (signerInfo.certificateChain.map (fun cert => sha256hex cert.raw)))) ∧
    (signerInfo.certificateChain ≠ [] →
      jsonStringArray (signerInfo.certificateChain.map (fun cert => sha256hex cert.raw)) =
        "[" ++ String.intercalate ","
          ((signerInfo.certificateChain.map (fun cert => sha256hex cert.raw)).map
            (fun s => "\"" ++ s ++ "\"")) ++ "]") ∧
    (∀ k, k ≠ annotationX509ChainThumbprint →
      lookupKey (generateAnnotations sha256hex signerInfo annotations) k
        = lookupKey annotations k) := by
  refine ⟨?_, ?_, ?_⟩
  · exact lookupKey_mapSet_self annotations annotationX509ChainThumbprint _
  · intro hne
    cases hchain : signerInfo.certificateChain with
    | nil => exact absurd hchain hne
    | cons a t => simp [jsonStringArray, hchain]
  · intro k hk
    exact lookupKey_mapSet_other annotations annotationX509ChainThumbprint _ k hk

/-- C8 witness: the amended statement evaluated on a one-certificate chain
with a distinct plugin annotation entry, which is preserved. -/
theorem C8_generate_annotations_thumbprint_witness :
    lookupKey (generateAnnotations (fun _ => "ab") { certificateChain := [{ raw := [1] }] }
        [("vendor.key", "o")]) annotationX509ChainThumbprint = some "[\"ab\"]" ∧
    lookupKey (generateAnnotations (fun _ => "ab") { certificateChain := [{ raw := [1] }] }
        [("vendor.key", "o")]) "vendor.key" = some "o" := by
  constructor
  · exact (C8_generate_annotations_thumbprint (fun _ => "ab")
      { certificateChain := [{ raw := [1] }] } [("vendor.key", "o")]).1
  · exact (C8_generate_annotations_thumbprint (fun _ => "ab")
      { certificateChain := [{ raw := [1] }] } [("vendor.key", "o")]).2.2 "vendor.key" (by decide)

/-- The notation error values the flows construct or inspect. Go compares
them by concrete type (type switches) or by value (errors.Is on comparable
structs and the errDoneVerification sentinel); constructor identity models
both. Errors from external collaborators surface as `generic`. -/
inductive NErr where
  | signatureRetrievalFailed (msg : String)
  | verificationFailed (msg : String)
  | userMetadataVerificationFailed (msg : String)
  | pushSignatureFailed (msg : String)
  | signLocalContentFailed (msg : String)
  | doneVerification
  | generic (msg : String)
deriving DecidableEq

/-- Observable side effects of the flows: reference resolution, signature
blob fetches, verifier invocations, signer invocations and signature
pushes, each recording the descriptor or reference it was called with. -/
inductive Event where
  | resolveEvt (ref : String)
  | fetchBlobEvt (d : Descriptor)
  | verifyEvt (d : Descriptor)
  | signEvt (d : Descriptor)
  | pushEvt (d : Descriptor)
deriving DecidableEq

/-- Go strings.HasPrefix, modelled character-wise on the underlying
character lists. -/
def goHasPrefix (s pre : String) : Bool := pre.data.isPrefixOf s.data

/-- reservedAnnotationPrefixes from the signing flow. -/
def reservedAnnotationPrefixes : List String := ["io.cncf.notary"]

/-- addUserMetadataToDescriptor: add each user-metadata entry to the
descriptor's annotations, rejecting keys carrying a reserved prefix and keys
already present in the annotations. (The Go nil-map initialization has no
counterpart in the association-list model.) -/
def addUserMetadataToDescriptor (desc : Descriptor) :
    List (String × String) → Except String Descriptor
  | [] => Except.ok desc
  | (k, v) :: rest =>
    match reservedAnnotationPrefixes.find? (fun rp => goHasPrefix k rp) with
    | some rp =>
      Except.error ("error adding user metadata: metadata key " ++ k ++
        " has reserved prefix " ++ rp)
    | none =>
      if (lookupKey desc.annotations k).isSome then
        Except.error ("error adding user metadata: metadata key " ++ k ++
          " is already present in the target artifact")
      else
        addUserMetadataToDescriptor { desc with annotations := desc.annotations ++ [(k, v)] } rest

/-- time.Second in nanoseconds (time.Duration units). -/
def timeSecond : Int := 1000000000

/-- SignOptions (notation.SignOptions): expiry duration in nanoseconds. -/
structure SignOptions where
  artifactReference : String
  signatureMediaType : String
  expiryDuration : Int
  pluginConfig : List (String × String)
  signingAgent : String
deriving DecidableEq

/-- RemoteSignOptions: SignOptions plus the user metadata map. -/
structure RemoteSignOptions where
  signOptions : SignOptions
  userMetadata : List (String × String)
deriving DecidableEq

/-- LocalSignOptions for SignLocalContent. -/
structure LocalSignOptions where
  signatureMediaType : String
  expiryDuration : Int
  pluginConfig : List (String × String)
  signingAgent : String
  userMetadata : List (String × String)
deriving DecidableEq

/-- Oracles for the collaborators of the signing flows: oras reference
parsing (returning ref.Reference), repository Resolve, the Signer.Sign
implementation, the optional signerAnnotation interface (none models a
signer that does not implement it), repository PushSignature, the SHA-256
hex thumbprint primitive, and whether the repo argument was nil. -/
structure SignWorld where
  parseReference : String → Except String String
  resolve : String → Except String Descriptor
  signerSign : Descriptor → SignOptions → Except String (Bytes × SignerInfo)
  pluginAnnotations : Option (List (String × String))
  pushSignature : Bytes → Descriptor → List (String × String) → Except String Unit
  sha256hex : Bytes → String
  repoNil : Bool

/-- Result of notation.Sign: returned descriptor, error, and event trace. -/
structure SignFinal where
  desc : Descriptor
  err : Option NErr
  events : List Event
deriving DecidableEq

/-- notation.Sign: validate the expiry duration, parse the reference,
resolve the target, merge user metadata into the descriptor, invoke the
signer, generate the manifest annotations, and push the signature. -/
def Sign (w : SignWorld) (remoteOpts : RemoteSignOptions) : SignFinal :=
  if remoteOpts.signOptions.expiryDuration < 0 then
    { desc := emptyDescriptor,
      err := some (NErr.generic "expiry duration cannot be a negative value"), events := [] }
  else if remoteOpts.signOptions.expiryDuration % timeSecond ≠ 0 then
    { desc := emptyDescriptor,
      err := some (NErr.generic "expiry duration supports minimum granularity of seconds"),
      events := [] }
  else
    match w.parseReference remoteOpts.signOptions.artifactReference with
    | Except.error msg =>
      { desc := emptyDescriptor, err := some (NErr.generic msg), events := [] }
    | Except.ok refReference =>
      if refReference = "" then
        { desc := emptyDescriptor,
          err := some (NErr.generic "reference is missing digest or tag"), events := [] }
      else if w.repoNil then
        { desc := emptyDescriptor, err := some (NErr.generic "repo cannot be nil"), events := [] }
      else
        match w.resolve remoteOpts.signOptions.artifactReference with
        | Except.error msg =>
          { desc := emptyDescriptor, err := some (NErr.generic msg),
            events := [Event.resolveEvt remoteOpts.signOptions.artifactReference] }
        | Except.ok targetDesc0 =>
          match addUserMetadataToDescriptor targetDesc0 remoteOpts.userMetadata with
          | Except.error msg =>
            { desc := emptyDescriptor, err := some (NErr.generic msg),
              events := [Event.resolveEvt remoteOpts.signOptions.artifactReference] }
          | Except.ok targetDesc =>
            match w.signerSign targetDesc remoteOpts.signOptions with
            | Except.error msg =>
              { desc := emptyDescriptor, err := some (NErr.generic msg),
                events := [Event.resolveEvt remoteOpts.signOptions.artifactReference,
                  Event.signEvt targetDesc] }
            | Except.ok (_sig, signerInfo) =>
              let annotations :=
                generateAnnotations w.sha256hex signerInfo (w.pluginAnnotations.getD [])
              match w.pushSignature _sig targetDesc annotations with
              | Except.error msg =>
                { desc := emptyDescriptor, err := some (NErr.pushSignatureFailed msg),
                  events := [Event.resolveEvt remoteOpts.signOptions.artifactReference,
                    Event.signEvt targetDesc, Event.pushEvt targetDesc] }
              | Except.ok _ =>
                { desc := targetDesc, err := none,
                  events := [Event.resolveEvt remoteOpts.signOptions.artifactReference,
                    Event.signEvt targetDesc, Event.pushEvt targetDesc] }

/-- Result of notation.SignLocalContent: target descriptor, signature blob,
signature manifest annotations, error, and event trace. -/
structure SignLocalFinal where
  desc : Descriptor
  sig : Bytes
  annotations : List (String × String)
  err : Option NErr
  events : List Event
deriving DecidableEq

/-- notation.SignLocalContent: validate the expiry duration, merge user
metadata into the supplied descriptor, invoke the signer, and generate the
manifest annotations; nothing is pushed. -/
def SignLocalContent (w : SignWorld) (artifactDescriptor : Descriptor)
    (localOpts : LocalSignOptions) : SignLocalFinal :=
  if localOpts.expiryDuration < 0 then
    { desc := emptyDescriptor, sig := [], annotations := [],
      err := some (NErr.signLocalContentFailed "expiry duration cannot be a negative value"),
      events := [] }
  else if localOpts.expiryDuration % timeSecond ≠ 0 then
    { desc := emptyDescriptor, sig := [], annotations := [],
      err := some (NErr.signLocalContentFailed "expiry duration supports minimum granularity of seconds"),
      events := [] }
  else
    match addUserMetadataToDescriptor artifactDescriptor localOpts.userMetadata with
    | Except.error msg =>
      { desc := emptyDescriptor, sig := [], annotations := [],
        err := some (NErr.signLocalContentFailed msg), events := [] }
    | Except.ok targetDesc =>
      let signOpts : SignOptions :=
        { artifactReference := "", signatureMediaType := localOpts.signatureMediaType,
          expiryDuration := localOpts.expiryDuration, pluginConfig := localOpts.pluginConfig,
          signingAgent := localOpts.signingAgent }
      match w.signerSign targetDesc signOpts with
      | Except.error msg =>
        { desc := emptyDescriptor, sig := [], annotations := [],
          err := some (NErr.signLocalContentFailed msg),
          events := [Event.signEvt targetDesc] }
      | Except.ok (sig, signerInfo) =>
        let annotations :=
          generateAnnotations w.sha256hex signerInfo (w.pluginAnnotations.getD [])
        { desc := targetDesc, sig := sig, annotations := annotations, err := none,
          events := [Event.signEvt targetDesc] }

theorem lookupKey_append (m1 m2 : List (String × String)) (k : String) :
    lookupKey (m1 ++ m2) k
      = match lookupKey m1 k with
        | some v => some v
        | none => lookupKey m2 k := by
  induction m1 with
  | nil => simp [lookupKey]
  | cons p rest ih =>
    rw [List.cons_append, lookupKey_cons, lookupKey_cons]
    by_cases h : (p.1 == k) = true
    · rw [if_pos h, if_pos h]
    · rw [if_neg h, if_neg h]
      exact ih

/-- Some user-metadata key carries a reserved prefix or is already present in
the descriptor's annotations. -/
abbrev HasBadKey (desc : Descriptor) (metadata : List (String × String)) : Prop :=
  ∃ p ∈ metadata,
    (reservedAnnotationPrefixes.any (fun rp => goHasPrefix p.1 rp)) = true ∨
    (lookupKey desc.annotations p.1).isSome = true

/-- Every user-metadata key is free of reserved prefixes and absent from the
descriptor's annotations. -/
abbrev GoodKeys (desc : Descriptor) (metadata : List (String × String)) : Prop :=
  ∀ p ∈ metadata,
    (reservedAnnotationPrefixes.any (fun rp => goHasPrefix p.1 rp)) = false ∧
    lookupKey desc.annotations p.1 = none

theorem addUserMetadata_error_of_bad :
    ∀ (metadata : List (String × String)) (desc : Descriptor),
      HasBadKey desc metadata →
      isError (addUserMetadataToDescriptor desc metadata) = true := by
  intro metadata
  induction metadata with
  | nil =>
    intro desc h
    rcases h with ⟨p, hp, _⟩
    exact absurd hp (List.not_mem_nil p)
  | cons q rest ih =>
    intro desc h
    obtain ⟨k, v⟩ := q
    cases hfind : reservedAnnotationPrefixes.find? (fun rp => goHasPrefix k rp) with
    | some rp => simp [addUserMetadataToDescriptor, hfind, isError]
    | none =>
      by_cases hpres : (lookupKey desc.annotations k).isSome = true
      · simp [addUserMetadataToDescriptor, hfind, hpres, isError]
      · have hstep : addUserMetadataToDescriptor desc ((k, v) :: rest)
            = addUserMetadataToDescriptor
                { desc with annotations := desc.annotations ++ [(k, v)] } rest := by
          simp [addUserMetadataToDescriptor, hfind, hpres]
        rw [hstep]
        apply ih
        have hkpref : ¬ ((reservedAnnotationPrefixes.any (fun rp => goHasPrefix k rp)) = true) := by
          intro hany
          rcases List.any_eq_true.mp hany with ⟨rp, hrp, hst⟩
          rcases List.find?_eq_none.mp hfind rp hrp hst
        rcases h with ⟨p, hp, hbad⟩
        rcases List.mem_cons.mp hp with hphead | hptail
        · exfalso
          rcases hbad with hb | hb
          · rw [hphead] at hb
            exact hkpref hb
          · rw [hphead] at hb
            exact hpres hb
        · refine ⟨p, hptail, ?_⟩
          rcases hbad with hb | hb
          · exact Or.inl hb
          · refine Or.inr ?_
            rw [lookupKey_append]
            rcases Option.isSome_iff_exists.mp hb with ⟨x, hx⟩
            simp only [hx]
            rfl

theorem addUserMetadata_ok_of_good :
    ∀ (metadata : List (String × String)) (desc : Descriptor),
      GoodKeys desc metadata → (metadata.map Prod.fst).Nodup →
      addUserMetadataToDescriptor desc metadata
        = Except.ok { desc with annotations := desc.annotations ++ metadata } := by
  intro metadata
  induction metadata with
  | nil => intro desc _ _; simp [addUserMetadataToDescriptor]
  | cons q rest ih =>
    intro desc hgood hnodup
    obtain ⟨k, v⟩ := q
    have hq := hgood (k, v) (List.mem_cons_self _ _)
    have hfind : reservedAnnotationPrefixes.find? (fun rp => goHasPrefix k rp) = none := by
      rw [List.find?_eq_none]
      intro rp hrp hst
      rcases List.any_eq_false.mp hq.1 rp hrp hst
    have hstep : addUserMetadataToDescriptor desc ((k, v) :: rest)
        = addUserMetadataToDescriptor
            { desc with annotations := desc.annotations ++ [(k, v)] } rest := by
      simp [addUserMetadataToDescriptor, hfind, hq.2]
    rw [hstep]
    have hknotin : k ∉ rest.map Prod.fst := (List.nodup_cons.mp hnodup).1
    rw [ih { desc with annotations := desc.annotations ++ [(k, v)] }
      (by
        intro p hp
        have hpg := hgood p (List.mem_cons_of_mem _ hp)
        refine ⟨hpg.1, ?_⟩
        rw [lookupKey_append]
        simp only [hpg.2]
        have hpk : ¬ ((k == p.1) = true) := by
          simp only [beq_iff_eq]
          intro he
          exact hknotin (he ▸ List.mem_map_of_mem Prod.fst hp)
        rw [lookupKey_cons, if_neg hpk]
        rfl)
      ((List.nodup_cons.mp hnodup).2)]
    simp

/-- C5: if any user-metadata key carries the reserved prefix io.cncf.notary
or is already present in the target descriptor's annotations, Sign (and
SignLocalContent) fails and never invokes the signer or pushes a signature;
otherwise the descriptor handed to the signer is the resolved (resp.
supplied) descriptor with its annotations extended by exactly the
user-metadata entries. -/
theorem C5_user_metadata_rejection (w : SignWorld) (remoteOpts : RemoteSignOptions)
    (artifactDescriptor : Descriptor) (localOpts : LocalSignOptions) :
    (∀ d0, w.resolve remoteOpts.signOptions.artifactReference = Except.ok d0 →
      HasBadKey d0 remoteOpts.userMetadata →
      (Sign w remoteOpts).err ≠ none ∧
      (∀ d, Event.signEvt d ∉ (Sign w remoteOpts).events ∧
            Event.pushEvt d ∉ (Sign w remoteOpts).events)) ∧
    (∀ d0 refRef, ¬ remoteOpts.signOptions.expiryDuration < 0 →
      remoteOpts.signOptions.expiryDuration % timeSecond = 0 →
      w.parseReference remoteOpts.signOptions.artifactReference = Except.ok refRef →
      refRef ≠ "" → w.repoNil = false →
      w.resolve remoteOpts.signOptions.artifactReference = Except.ok d0 →
      GoodKeys d0 remoteOpts.userMetadata →
      (remoteOpts.userMetadata.map Prod.fst).Nodup →
      Event.signEvt { d0 with annotations := d0.annotations ++ remoteOpts.userMetadata }
          ∈ (Sign w remoteOpts).events ∧
      (∀ d, Event.signEvt d ∈ (Sign w remoteOpts).events →
        d = { d0 with annotations := d0.annotations ++ remoteOpts.userMetadata })) ∧
    (HasBadKey artifactDescriptor localOpts.userMetadata →
      (SignLocalContent w artifactDescriptor localOpts).err ≠ none ∧
      (∀ d, Event.signEvt d ∉ (SignLocalContent w artifactDescriptor localOpts).events)) ∧
    (¬ localOpts.expiryDuration < 0 →
      localOpts.expiryDuration % timeSecond = 0 →
      GoodKeys artifactDescriptor localOpts.userMetadata →
      (localOpts.userMetadata.map Prod.fst).Nodup →
      Event.signEvt { artifactDescriptor with
          annotations := artifactDescriptor.annotations ++ localOpts.userMetadata }
        ∈ (SignLocalContent w artifactDescriptor localOpts).events ∧
      (∀ d, Event.signEvt d ∈ (SignLocalContent w artifactDescriptor localOpts).events →
        d = { artifactDescriptor with
          annotations := artifactDescriptor.annotations ++ localOpts.userMetadata })) := by
  refine ⟨?_, ?_, ?_, ?_⟩
  · intro d0 hres hbad
    have herr := addUserMetadata_error_of_bad remoteOpts.userMetadata d0 hbad
    by_cases h1 : remoteOpts.signOptions.expiryDuration < 0
    · simp only [Sign, if_pos h1]
      exact ⟨by simp, fun d => ⟨by simp, by simp⟩⟩
    · by_cases h2 : remoteOpts.signOptions.expiryDuration % timeSecond = 0
      · cases hp : w.parseReference remoteOpts.signOptions.artifactReference with
        | error msg =>
          simp only [Sign, if_neg h1, if_neg (not_not_intro h2), hp]
          exact ⟨by simp, fun d => ⟨by simp, by simp⟩⟩
        | ok refRef =>
          by_cases hrr : refRef = ""
          · simp only [Sign, if_neg h1, if_neg (not_not_intro h2), hp, if_pos hrr]
            exact ⟨by simp, fun d => ⟨by simp, by simp⟩⟩
          · by_cases hrn : w.repoNil = true
            · simp only [Sign, if_neg h1, if_neg (not_not_intro h2), hp, if_neg hrr, if_pos hrn]
              exact ⟨by simp, fun d => ⟨by simp, by simp⟩⟩
            · cases haum : addUserMetadataToDescriptor d0 remoteOpts.userMetadata with
              | error msg =>
                simp only [Sign, if_neg h1, if_neg (not_not_intro h2), hp, if_neg hrr,
                  if_neg hrn, hres, haum]
                exact ⟨by simp, fun d => ⟨by simp, by simp⟩⟩
              | ok t =>
                rw [haum] at herr
                simp [isError] at herr
      · simp only [Sign, if_neg h1, if_pos h2]
        exact ⟨by simp, fun d => ⟨by simp, by simp⟩⟩
  · intro d0 refRef h1 h2 hp hrr hrn hres hgood hnodup
    have hrn2 : ¬ (w.repoNil = true) := by simp [hrn]
    have haum := addUserMetadata_ok_of_good remoteOpts.userMetadata d0 hgood hnodup
    cases hss : w.signerSign { d0 with annotations := d0.annotations ++ remoteOpts.userMetadata }
        remoteOpts.signOptions with
    | error msg =>
      simp only [Sign, if_neg h1, if_neg (not_not_intro h2), hp, if_neg hrr, if_neg hrn2,
        hres, haum, hss]
      refine ⟨by simp, ?_⟩
      intro d hd
      simpa using hd
    | ok pair =>
      obtain ⟨sg, si⟩ := pair
      cases hpush : w.pushSignature sg
          { d0 with annotations := d0.annotations ++ remoteOpts.userMetadata }
          (generateAnnotations w.sha256hex si (w.pluginAnnotations.getD [])) with
      | error msg =>
        simp only [Sign, if_neg h1, if_neg (not_not_intro h2), hp, if_neg hrr, if_neg hrn2,
          hres, haum, hss, hpush]
        refine ⟨by simp, ?_⟩
        intro d hd
        simpa using hd
      | ok u =>
        cases u
        simp only [Sign, if_neg h1, if_neg (not_not_intro h2), hp, if_neg hrr, if_neg hrn2,
          hres, haum, hss, hpush]
        refine ⟨by simp, ?_⟩
        intro d hd
        simpa using hd
  · intro hbad
    have herr := addUserMetadata_error_of_bad localOpts.userMetadata artifactDescriptor hbad
    by_cases h1 : localOpts.expiryDuration < 0
    · simp only [SignLocalContent, if_pos h1]
      exact ⟨by simp, fun d => by simp⟩
    · by_cases h2 : localOpts.expiryDuration % timeSecond = 0
      · cases haum : addUserMetadataToDescriptor artifactDescriptor localOpts.userMetadata with
        | error msg =>
          simp only [SignLocalContent, if_neg h1, if_neg (not_not_intro h2), haum]
          exact ⟨by simp, fun d => by simp⟩
        | ok t =>
          rw [haum] at herr
          simp [isError] at herr
      · simp only [SignLocalContent, if_neg h1, if_pos h2]
        exact ⟨by simp, fun d => by simp⟩
  · intro h1 h2 hgood hnodup
    have haum := addUserMetadata_ok_of_good localOpts.userMetadata artifactDescriptor hgood hnodup
    cases hss : w.signerSign { artifactDescriptor with
        annotations := artifactDescriptor.annotations ++ localOpts.userMetadata }
        { artifactReference := "", signatureMediaType := localOpts.signatureMediaType,
          expiryDuration := localOpts.expiryDuration, pluginConfig := localOpts.pluginConfig,
          signingAgent := localOpts.signingAgent } with
    | error msg =>
      simp only [SignLocalContent, if_neg h1, if_neg (not_not_intro h2), haum, hss]
      refine ⟨by simp, ?_⟩
      intro d hd
      simpa using hd
    | ok pair =>
      obtain ⟨sg, si⟩ := pair
      simp only [SignLocalContent, if_neg h1, if_neg (not_not_intro h2), haum, hss]
      refine ⟨by simp, ?_⟩
      intro d hd
      simpa using hd

/-- Concrete resolved descriptor for the C5 witness. -/
def c5Desc : Descriptor :=
  { mediaType := "application/vnd.oci.image.manifest.v1+json", digestStr := "sha256:xyz",
    size := 5, annotations := [("existing", "1")] }

/-- Concrete signing world for the C5 witness. -/
def c5World : SignWorld :=
  { parseReference := fun _ => Except.ok "v1"
    resolve := fun _ => Except.ok c5Desc
    signerSign := fun _ _ => Except.ok ([1], { certificateChain := [{ raw := [2] }] })
    pluginAnnotations := none
    pushSignature := fun _ _ _ => Except.ok ()
    sha256hex := fun _ => "cc"
    repoNil := false }

/-- Concrete SignOptions for the C5 witness. -/
def c5SignOptions : SignOptions :=
  { artifactReference := "reg.io/repo:v1"
    signatureMediaType := "application/jose+json"
    expiryDuration := 0
    pluginConfig := []
    signingAgent := "" }

/-- Remote sign options with well-formed user metadata for the C5 witness. -/
def c5OptsGood : RemoteSignOptions :=
  { signOptions := c5SignOptions
    userMetadata := [("buildId", "42")] }

/-- Remote sign options with a reserved-prefix user-metadata key for the C5
witness. -/
def c5OptsBad : RemoteSignOptions :=
  { signOptions := c5SignOptions
    userMetadata := [("io.cncf.notary.evil", "1")] }

/-- Local sign options with a key colliding with an existing annotation for
the C5 witness. -/
def c5LocalOptsBad : LocalSignOptions :=
  { signatureMediaType := "application/jose+json", expiryDuration := 0,
    pluginConfig := [], signingAgent := "", userMetadata := [("existing", "2")] }

/-- Local sign options with well-formed user metadata for the C5 witness. -/
def c5LocalOptsGood : LocalSignOptions :=
  { signatureMediaType := "application/jose+json", expiryDuration := 0,
    pluginConfig := [], signingAgent := "", userMetadata := [("buildId", "42")] }

/-- C5 witness: a reserved-prefix key makes Sign fail without signing or
pushing, a colliding key makes SignLocalContent fail without signing, and
well-formed metadata reaches the signer as exactly the extended
descriptor. -/
theorem C5_user_metadata_rejection_witness :
    ((Sign c5World c5OptsBad).err ≠ none ∧
      Event.signEvt c5Desc ∉ (Sign c5World c5OptsBad).events ∧
      Event.pushEvt c5Desc ∉ (Sign c5World c5OptsBad).events) ∧
    (Event.signEvt { c5Desc with annotations := c5Desc.annotations ++ c5OptsGood.userMetadata }
      ∈ (Sign c5World c5OptsGood).events) ∧
    ((SignLocalContent c5World c5Desc c5LocalOptsBad).err ≠ none ∧
      Event.signEvt c5Desc ∉ (SignLocalContent c5World c5Desc c5LocalOptsBad).events) ∧
    (Event.signEvt { c5Desc with
        annotations := c5Desc.annotations ++ c5LocalOptsGood.userMetadata }
      ∈ (SignLocalContent c5World c5Desc c5LocalOptsGood).events) := by
  have hthm := C5_user_metadata_rejection c5World c5OptsBad c5Desc c5LocalOptsBad
  have hthm2 := C5_user_metadata_rejection c5World c5OptsGood c5Desc c5LocalOptsGood
  have hbadRemote : HasBadKey c5Desc c5OptsBad.userMetadata := by
    refine ⟨("io.cncf.notary.evil", "1"), by decide, Or.inl (by decide)⟩
  have hbadLocal : HasBadKey c5Desc c5LocalOptsBad.userMetadata := by
    refine ⟨("existing", "2"), by decide, Or.inr (by decide)⟩
  have ha := hthm.1 c5Desc (by rfl) hbadRemote
  have hc := hthm.2.2.1 hbadLocal
  have hb := hthm2.2.1 c5Desc "v1" (by decide) (by decide) (by rfl) (by decide) (by rfl)
    (by rfl) (by decide) (by decide)
  have hd := hthm2.2.2.2 (by decide) (by decide) (by decide) (by decide)
  exact ⟨⟨ha.1, (ha.2 c5Desc).1, (ha.2 c5Desc).2⟩, hb.1, ⟨hc.1, hc.2 c5Desc⟩, hd.1⟩

/-- Plugin signing capabilities (plugin.CapabilitySignatureGenerator and
plugin.CapabilityEnvelopeGenerator). -/
inductive PluginCapability where
  | signatureGenerator
  | envelopeGenerator
deriving DecidableEq

/-- plugin.Metadata restricted to what PluginSigner.Sign reads: whether
metadata.Validate() succeeds (the validation itself is external) and the
declared capability set. -/
structure PluginMetadata where
  validateOk : Bool
  capabilities : List PluginCapability
deriving DecidableEq

/-- Possible responses of the plugin runner to the get-plugin-metadata
command: a metadata value, or a response of the wrong dynamic type (whose
type name feeds the error message). -/
inductive PluginRunnerOut where
  | metadata (m : PluginMetadata)
  | wrongType (typeName : String)
deriving DecidableEq

/-- Oracles for PluginSigner.Sign: the runner's get-plugin-metadata result
and the result of the signature-generator path (describe-key,
generate-signature, envelope assembly), which the envelope-generator claim
does not depend on. -/
structure PluginSignerModel where
  runMetadata : Except String PluginRunnerOut
  generateSignatureResult : Except String Bytes

/-- jws PluginSigner.generateSignatureEnvelope: the envelope-generator path
is an unimplemented stub in the source. -/
def generateSignatureEnvelope : Except String Bytes :=
  Except.error "not implemented"

/-- jws PluginSigner.Sign: query and validate plugin metadata, then dispatch
on the declared capability (signature-generator first, then
envelope-generator). -/
def PluginSignerSign (s : PluginSignerModel) : Except String Bytes :=
  match s.runMetadata with
  | Except.error msg => Except.error ("metadata command failed: " ++ msg)
  | Except.ok (PluginRunnerOut.wrongType t) =>
    Except.error ("plugin runner returned incorrect get-plugin-metadata response type '" ++ t ++ "'")
  | Except.ok (PluginRunnerOut.metadata m) =>
    if !m.validateOk then
      Except.error "invalid plugin metadata"
    else if m.capabilities.contains PluginCapability.signatureGenerator then
      s.generateSignatureResult
    else if m.capabilities.contains PluginCapability.envelopeGenerator then
      generateSignatureEnvelope
    else
      Except.error "plugin does not have signing capabilities"

/-- C6: a plugin declaring only the envelope-generator capability is routed
to generateSignatureEnvelope, which returns the error "not implemented"
instead of delegating envelope construction to the plugin and validating
the result — the claimed behaviour is not implemented in this source. -/
theorem C6_envelope_generator_not_implemented :
    PluginSignerSign
      { runMetadata := Except.ok (PluginRunnerOut.metadata
          { validateOk := true, capabilities := [PluginCapability.envelopeGenerator] })
        generateSignatureResult := Except.ok [0] }
      = Except.error "not implemented" := by
  rfl

/-- trustpolicy.VerificationLevel, identified by its name; its per-check
action table is not read by the verification flow itself. -/
structure VerificationLevel where
  name : String
deriving DecidableEq

/-- notation.ValidationResult: check type, policy action and optional error. -/
structure ValidationResult where
  checkType : String
  action : String
  error : Option NErr
deriving DecidableEq

/-- notation.VerificationOutcome. The envelope content is opaque to the
flow; only the zero value (none) versus a parsed value matters here. -/
structure VerificationOutcome where
  rawSignature : Bytes
  envelopeContent : Option String
  verificationLevel : Option VerificationLevel
  verificationResults : List ValidationResult
  error : Option NErr
deriving DecidableEq

/-- notation.VerifyOptions as passed to Verifier.Verify. -/
structure VerifyOptions where
  artifactReference : String
  signatureMediaType : String
  pluginConfig : List (String × String)
  userMetadata : List (String × String)
  targetAtLocal : Bool
  trustPolicyScope : String
deriving DecidableEq

/-- notation.RemoteVerifyOptions. MaxSignatureAttempts is a Go int. -/
structure RemoteVerifyOptions where
  artifactReference : String
  pluginConfig : List (String × String)
  maxSignatureAttempts : Int
  userMetadata : List (String × String)
deriving DecidableEq

/-- Model of the registry.Repository as used by notation.Verify: whether the
dynamic type check against orasRegistry.Repository succeeds, the Resolve
oracle, the referrers pages ListSignatures delivers to its callback in
order, and the FetchSignatureBlob oracle. -/
structure RepoModel where
  isRemote : Bool
  resolve : String → Except String Descriptor
  pages : List (List Descriptor)
  fetchSignatureBlob : Descriptor → Except String (Bytes × Descriptor)

/-- Model of the Verifier: the optional skipVerifier interface (none models
a verifier that does not implement it) and the per-signature Verify call
returning (outcome, error); a nil error means successful verification. -/
structure VerifierModel where
  skipVerify : Option (VerifyOptions → Except NErr (Bool × Option VerificationLevel))
  verify : Descriptor → Bytes → VerifyOptions →
    Option VerificationOutcome × Option NErr

/-- The mutable state captured by the ListSignatures callback closure in
notation.Verify: the processed-signature counter, the collected outcomes
(pointers, hence Option), the aggregated verification-failure error, and
the event trace. -/
structure LoopState where
  numProcessed : Nat
  outcomes : List (Option VerificationOutcome)
  failedErr : NErr
  events : List Event
deriving DecidableEq

/-- How the signature loop of one callback invocation ended: the for-loop
fell through (or broke), or the callback returned an error early. -/
inductive LoopExit where
  | fellThrough
  | returned (e : NErr)
deriving DecidableEq

/-- errExceededMaxVerificationLimit from notation.Verify. -/
def errExceededMaxVerificationLimit (maxAttempts : Int) : NErr :=
  NErr.verificationFailed
    ("total number of signatures associated with an artifact should be less than: "
      ++ toString maxAttempts)

/-- The read-only data of one notation.Verify invocation threaded through
the callback: verifier, repo, base verify options, resolved artifact
descriptor, artifact reference, and MaxSignatureAttempts. -/
structure VCtx where
  verifier : VerifierModel
  repo : RepoModel
  opts0 : VerifyOptions
  artifactDesc : Descriptor
  artifactRef : String
  maxAttempts : Int

/-- The Go type switch `outcome.Error.(ErrorUserMetadataVerificationFailed)`
guarding the update of verificationFailedErr. -/
def updateFailedErr (cur : NErr) (e? : Option NErr) : NErr :=
  match e? with
  | some (NErr.userMetadataVerificationFailed m) => NErr.userMetadataVerificationFailed m
  | _ => cur

/-- The per-signature for-loop of the ListSignatures callback in
notation.Verify: break once the counter reaches MaxSignatureAttempts,
increment it, fetch the signature blob (propagating a retrieval error),
verify the signature (propagating the error when the outcome is nil,
recording a user-metadata failure otherwise), and short-circuit with
errDoneVerification on the first success. -/
def processItems (c : VCtx) : LoopState → List Descriptor → LoopState × LoopExit
  | st, [] => (st, LoopExit.fellThrough)
  | st, d :: rest =>
    if c.maxAttempts ≤ (st.numProcessed : Int) then
      (st, LoopExit.fellThrough)
    else
      let st1 : LoopState := { st with numProcessed := st.numProcessed + 1 }
      match c.repo.fetchSignatureBlob d with
      | Except.error msg =>
        ({ st1 with events := st1.events ++ [Event.fetchBlobEvt d] },
          LoopExit.returned (NErr.signatureRetrievalFailed
            ("unable to retrieve digital signature with digest \"" ++ d.digestStr ++
             "\" associated with \"" ++ c.artifactRef ++ "\" from the registry, error : " ++ msg)))
      | Except.ok (sigBlob, sigDesc) =>
        let st2 : LoopState :=
          { st1 with events := st1.events ++ [Event.fetchBlobEvt d, Event.verifyEvt d] }
        match c.verifier.verify c.artifactDesc sigBlob
            { c.opts0 with signatureMediaType := sigDesc.mediaType } with
        | (none, some e) => (st2, LoopExit.returned e)
        | (some outcome, some _e) =>
          processItems c { st2 with failedErr := updateFailedErr st2.failedErr outcome.error } rest
        | (outcome?, none) =>
          ({ st2 with outcomes := st2.outcomes ++ [outcome?] },
            LoopExit.returned NErr.doneVerification)

/-- One invocation of the ListSignatures callback: run the for-loop, then
return errExceededMaxVerificationLimit if the counter has reached
MaxSignatureAttempts, else nil. -/
def runCallback (c : VCtx) (st : LoopState) (page : List Descriptor) :
    LoopState × Option NErr :=
  match processItems c st page with
  | (st1, LoopExit.returned e) => (st1, some e)
  | (st1, LoopExit.fellThrough) =>
    if c.maxAttempts ≤ (st1.numProcessed : Int) then
      (st1, some (errExceededMaxVerificationLimit c.maxAttempts))
    else (st1, none)

/-- The paging contract of repo.ListSignatures (oras Referrers): deliver
pages to the callback in order and stop at the first non-nil callback
error, returning it. -/
def runPages (c : VCtx) : LoopState → List (List Descriptor) → LoopState × Option NErr
  | st, [] => (st, none)
  | st, p :: ps =>
    match runCallback c st p with
    | (st1, some e) => (st1, some e)
    | (st1, none) => runPages c st1 ps

/-- Result of notation.Verify: returned descriptor, outcome list, error,
final processed-signature counter and event trace. -/
structure VerifyFinal where
  desc : Descriptor
  outcomes : List (Option VerificationOutcome)
  err : Option NErr
  processed : Nat
  events : List Event
deriving DecidableEq

/-- The VerifyOptions value notation.Verify builds from RemoteVerifyOptions
before the skip check (SignatureMediaType is filled per signature later). -/
def mkVerifyOpts (remoteOpts : RemoteVerifyOptions) : VerifyOptions :=
  { artifactReference := remoteOpts.artifactReference
    signatureMediaType := ""
    pluginConfig := remoteOpts.pluginConfig
    userMetadata := remoteOpts.userMetadata
    targetAtLocal := false
    trustPolicyScope := "" }

/-- The post-iteration checks of notation.Verify: no signature processed is
a signature-not-found failure; no successful outcome is the aggregated
verification failure; otherwise success with the resolved descriptor. -/
def finishVerify (artifactDescriptor : Descriptor) (artifactRef : String)
    (st : LoopState) : VerifyFinal :=
  if st.numProcessed = 0 then
    { desc := emptyDescriptor, outcomes := [],
      err := some (NErr.signatureRetrievalFailed ("no signature is associated with \"" ++
        artifactRef ++ "\", make sure the image was signed successfully")),
      processed := st.numProcessed, events := st.events }
  else if st.outcomes = [] then
    { desc := emptyDescriptor, outcomes := st.outcomes, err := some st.failedErr,
      processed := st.numProcessed, events := st.events }
  else
    { desc := artifactDescriptor, outcomes := st.outcomes, err := none,
      processed := st.numProcessed, events := st.events }

/-- The VCtx of one notation.Verify invocation. -/
def mkVCtx (verifier : VerifierModel) (repo : RepoModel) (remoteOpts : RemoteVerifyOptions)
    (opts0 : VerifyOptions) (artifactDescriptor : Descriptor) : VCtx :=
  { verifier := verifier
    repo := repo
    opts0 := opts0
    artifactDesc := artifactDescriptor
    artifactRef := remoteOpts.artifactReference
    maxAttempts := remoteOpts.maxSignatureAttempts }

/-- The state of the callback closure before the first page: counter zero,
no outcomes, the zero-value ErrorVerificationFailed aggregate, and the
resolve call already recorded. -/
def initLoopState (remoteOpts : RemoteVerifyOptions) : LoopState :=
  { numProcessed := 0
    outcomes := []
    failedErr := NErr.verificationFailed ""
    events := [Event.resolveEvt remoteOpts.artifactReference] }

/-- The body of notation.Verify after the skip check: validate
MaxSignatureAttempts, parse the reference, resolve the artifact, iterate
over the referrers pages, and post-process the iteration error (the
errDoneVerification sentinel falls through to the post-iteration checks;
errExceededMaxVerificationLimit is returned with the collected outcomes;
any other error is returned with a nil outcome list). -/
def verifyCore (parseReference : String → Except String String)
    (verifier : VerifierModel) (repo : RepoModel) (remoteOpts : RemoteVerifyOptions)
    (opts0 : VerifyOptions) : VerifyFinal :=
  if remoteOpts.maxSignatureAttempts ≤ 0 then
    { desc := emptyDescriptor, outcomes := [],
      err := some (NErr.signatureRetrievalFailed
        ("verifyOptions.MaxSignatureAttempts expects a positive number, got " ++
          toString remoteOpts.maxSignatureAttempts)),
      processed := 0, events := [] }
  else
    match parseReference remoteOpts.artifactReference with
    | Except.error msg =>
      { desc := emptyDescriptor, outcomes := [],
        err := some (NErr.signatureRetrievalFailed msg), processed := 0, events := [] }
    | Except.ok refReference =>
      if refReference = "" then
        { desc := emptyDescriptor, outcomes := [],
          err := some (NErr.signatureRetrievalFailed "reference is missing digest or tag"),
          processed := 0, events := [] }
      else
        match repo.resolve remoteOpts.artifactReference with
        | Except.error msg =>
          { desc := emptyDescriptor, outcomes := [],
            err := some (NErr.signatureRetrievalFailed msg), processed := 0,
            events := [Event.resolveEvt remoteOpts.artifactReference] }
        | Except.ok artifactDescriptor =>
          let c : VCtx := mkVCtx verifier repo remoteOpts opts0 artifactDescriptor
          let st0 : LoopState := initLoopState remoteOpts
          match runPages c st0 repo.pages with
          | (st, some e) =>
            if e = NErr.doneVerification then
              finishVerify artifactDescriptor remoteOpts.artifactReference st
            else if e = errExceededMaxVerificationLimit remoteOpts.maxSignatureAttempts then
              { desc := emptyDescriptor, outcomes := st.outcomes, err := some e,
                processed := st.numProcessed, events := st.events }
            else
              { desc := emptyDescriptor, outcomes := [], err := some e,
                processed := st.numProcessed, events := st.events }
          | (st, none) => finishVerify artifactDescriptor remoteOpts.artifactReference st

/-- notation.Verify: require a remote repository (dynamic type check), run
the skip check when the verifier implements skipVerifier (returning a
single outcome carrying only the verification level when the policy level
is skip), and otherwise run the verification body. -/
def Verify (parseReference : String → Except String String) (verifier : VerifierModel)
    (repo : RepoModel) (remoteOpts : RemoteVerifyOptions) : VerifyFinal :=
  if !repo.isRemote then
    { desc := emptyDescriptor, outcomes := [],
      err := some (NErr.generic "failed to verify: repo must be remote repository"),
      processed := 0, events := [] }
  else
    let opts0 := mkVerifyOpts remoteOpts
    match verifier.skipVerify with
    | some sk =>
      match sk opts0 with
      | Except.error e =>
        { desc := emptyDescriptor, outcomes := [], err := some e, processed := 0, events := [] }
      | Except.ok (true, verificationLevel) =>
        { desc := emptyDescriptor
          outcomes := [some { rawSignature := []
                              envelopeContent := none
                              verificationLevel := verificationLevel
                              verificationResults := []
                              error := none }]
          err := none
          processed := 0
          events := [] }
      | Except.ok (false, _) => verifyCore parseReference verifier repo remoteOpts opts0
    | none => verifyCore parseReference verifier repo remoteOpts opts0

/-- Is this event a FetchSignatureBlob call? -/
def isFetchEvt : Event → Bool
  | Event.fetchBlobEvt _ => true
  | _ => false

/-- Is this event a verifier.Verify call? -/
def isVerifyEvt : Event → Bool
  | Event.verifyEvt _ => true
  | _ => false

/-- Number of FetchSignatureBlob calls in a trace. -/
def fetchCount (evts : List Event) : Nat := evts.countP isFetchEvt

/-- Number of verifier.Verify calls in a trace. -/
def verifyCount (evts : List Event) : Nat := evts.countP isVerifyEvt

theorem fetchCount_append (a b : List Event) :
    fetchCount (a ++ b) = fetchCount a + fetchCount b := by
  simp [fetchCount, List.countP_append]

theorem verifyCount_append (a b : List Event) :
    verifyCount (a ++ b) = verifyCount a + verifyCount b := by
  simp [verifyCount, List.countP_append]

theorem processItems_inv (c : VCtx) :
    ∀ (L : List Descriptor) (st : LoopState),
      fetchCount st.events = st.numProcessed →
      verifyCount st.events ≤ st.numProcessed →
      (st.numProcessed : Int) ≤ c.maxAttempts →
      fetchCount (processItems c st L).1.events = (processItems c st L).1.numProcessed ∧
      verifyCount (processItems c st L).1.events ≤ (processItems c st L).1.numProcessed ∧
      ((processItems c st L).1.numProcessed : Int) ≤ c.maxAttempts := by
  intro L
  induction L with
  | nil =>
    intro st h1 h2 h3
    simpa [processItems] using ⟨h1, h2, h3⟩
  | cons d rest ih =>
    intro st h1 h2 h3
    by_cases hmax : c.maxAttempts ≤ (st.numProcessed : Int)
    · simpa [processItems, if_pos hmax] using ⟨h1, h2, h3⟩
    · have hlt : (st.numProcessed : Int) < c.maxAttempts := not_le.mp hmax
      cases hf : c.repo.fetchSignatureBlob d with
      | error msg =>
        simp only [processItems, if_neg hmax, hf]
        refine ⟨?_, ?_, ?_⟩
        · simp only [fetchCount_append, h1]
          rfl
        · simp only [verifyCount_append]
          have : verifyCount [Event.fetchBlobEvt d] = 0 := rfl
          omega
        · show ((st.numProcessed + 1 : Nat) : Int) ≤ c.maxAttempts
          omega
      | ok pair =>
        obtain ⟨b, sd⟩ := pair
        cases hv : c.verifier.verify c.artifactDesc b
            { c.opts0 with signatureMediaType := sd.mediaType } with
        | mk oc? e? =>
          have hfc : fetchCount (st.events ++ [Event.fetchBlobEvt d, Event.verifyEvt d])
              = st.numProcessed + 1 := by
            simp only [fetchCount_append, h1]
            rfl
          have hvc : verifyCount (st.events ++ [Event.fetchBlobEvt d, Event.verifyEvt d])
              ≤ st.numProcessed + 1 := by
            simp only [verifyCount_append]
            have : verifyCount [Event.fetchBlobEvt d, Event.verifyEvt d] = 1 := rfl
            omega
          cases e? with
          | none =>
            simp only [processItems, if_neg hmax, hf, hv]
            cases oc? with
            | none => exact ⟨hfc, hvc, by omega⟩
            | some oc => exact ⟨hfc, hvc, by omega⟩
          | some e =>
            cases oc? with
            | none =>
              simp only [processItems, if_neg hmax, hf, hv]
              exact ⟨hfc, hvc, by omega⟩
            | some oc =>
              simp only [processItems, if_neg hmax, hf, hv]
              exact ih _ hfc hvc
                (by show ((st.numProcessed + 1 : Nat) : Int) ≤ c.maxAttempts; omega)

theorem runPages_inv (c : VCtx) :
    ∀ (P : List (List Descriptor)) (st : LoopState),
      fetchCount st.events = st.numProcessed →
      verifyCount st.events ≤ st.numProcessed →
      (st.numProcessed : Int) ≤ c.maxAttempts →
      fetchCount (runPages c st P).1.events = (runPages c st P).1.numProcessed ∧
      verifyCount (runPages c st P).1.events ≤ (runPages c st P).1.numProcessed ∧
      ((runPages c st P).1.numProcessed : Int) ≤ c.maxAttempts := by
  intro P
  induction P with
  | nil =>
    intro st h1 h2 h3
    simpa [runPages] using ⟨h1, h2, h3⟩
  | cons p ps ih =>
    intro st h1 h2 h3
    have hpi := processItems_inv c p st h1 h2 h3
    cases hpc : processItems c st p with
    | mk st1 ex =>
      rw [hpc] at hpi
      cases ex with
      | returned e =>
        simp only [runPages, runCallback, hpc]
        exact hpi
      | fellThrough =>
        by_cases hm : c.maxAttempts ≤ (st1.numProcessed : Int)
        · simp only [runPages, runCallback, hpc, if_pos hm]
          exact hpi
        · simp only [runPages, runCallback, hpc, if_neg hm]
          exact ih st1 hpi.1 hpi.2.1 hpi.2.2

theorem finishVerify_fields (a : Descriptor) (r : String) (st : LoopState) :
    (finishVerify a r st).events = st.events ∧
    (finishVerify a r st).processed = st.numProcessed := by
  unfold finishVerify
  split
  · exact ⟨rfl, rfl⟩
  · split
    · exact ⟨rfl, rfl⟩
    · exact ⟨rfl, rfl⟩

theorem verifyCore_inv (parseReference : String → Except String String)
    (verifier : VerifierModel) (repo : RepoModel) (remoteOpts : RemoteVerifyOptions)
    (opts0 : VerifyOptions) (hmax : 0 < remoteOpts.maxSignatureAttempts) :
    fetchCount (verifyCore parseReference verifier repo remoteOpts opts0).events
      = (verifyCore parseReference verifier repo remoteOpts opts0).processed ∧
    verifyCount (verifyCore parseReference verifier repo remoteOpts opts0).events
      ≤ (verifyCore parseReference verifier repo remoteOpts opts0).processed ∧
    ((verifyCore parseReference verifier repo remoteOpts opts0).processed : Int)
      ≤ remoteOpts.maxSignatureAttempts := by
  have hm0 : ¬ remoteOpts.maxSignatureAttempts ≤ 0 := not_le.mpr hmax
  cases hp : parseReference remoteOpts.artifactReference with
  | error msg =>
    simp only [verifyCore, if_neg hm0, hp]
    exact ⟨rfl, Nat.le_refl 0, by omega⟩
  | ok refReference =>
    by_cases hrr : refReference = ""
    · simp only [verifyCore, if_neg hm0, hp, if_pos hrr]
      exact ⟨rfl, Nat.le_refl 0, by omega⟩
    · cases hres : repo.resolve remoteOpts.artifactReference with
      | error msg =>
        simp only [verifyCore, if_neg hm0, hp, if_neg hrr, hres]
        exact ⟨rfl, Nat.le_refl 0,
          by show ((0 : Nat) : Int) ≤ remoteOpts.maxSignatureAttempts; omega⟩
      | ok artifactDescriptor =>
        simp only [verifyCore, if_neg hm0, hp, if_neg hrr, hres]
        have hinv := runPages_inv (mkVCtx verifier repo remoteOpts opts0 artifactDescriptor)
          repo.pages (initLoopState remoteOpts) (by rfl) (Nat.le_refl 0) (by
          show ((0 : Nat) : Int) ≤ remoteOpts.maxSignatureAttempts
          omega)
        cases hrun : runPages (mkVCtx verifier repo remoteOpts opts0 artifactDescriptor)
            (initLoopState remoteOpts) repo.pages with
        | mk st e? =>
          rw [hrun] at hinv
          cases e? with
          | none =>
            have hf := finishVerify_fields artifactDescriptor remoteOpts.artifactReference st
            simp only [hf.1, hf.2]
            exact hinv
          | some e =>
            by_cases hd : e = NErr.doneVerification
            · simp only [if_pos hd]
              have hf := finishVerify_fields artifactDescriptor remoteOpts.artifactReference st
              simp only [hf.1, hf.2]
              exact hinv
            · by_cases hx : e = errExceededMaxVerificationLimit remoteOpts.maxSignatureAttempts
              · simp only [if_neg hd, if_pos hx]
                exact hinv
              · simp only [if_neg hd, if_neg hx]
                exact hinv

/-- C2: for options with MaxSignatureAttempts > 0, notation.Verify calls
FetchSignatureBlob exactly once per processed signature (the counter is
incremented once per signature), calls the verifier at most once per
processed signature, and never processes more than MaxSignatureAttempts
signatures, however many referrers pages and signature manifests the
listing delivers. -/
theorem Verify_skip_none (parseReference : String → Except String String)
    (verifier : VerifierModel) (repo : RepoModel) (remoteOpts : RemoteVerifyOptions)
    (hrem : repo.isRemote = true) (hsk : verifier.skipVerify = none) :
    Verify parseReference verifier repo remoteOpts
      = verifyCore parseReference verifier repo remoteOpts (mkVerifyOpts remoteOpts) := by
  simp [Verify, hrem, hsk]

theorem Verify_skip_false (parseReference : String → Except String String)
    (verifier : VerifierModel) (repo : RepoModel) (remoteOpts : RemoteVerifyOptions)
    (sk : VerifyOptions → Except NErr (Bool × Option VerificationLevel))
    (lvl : Option VerificationLevel)
    (hrem : repo.isRemote = true) (hsk : verifier.skipVerify = some sk)
    (hr : sk (mkVerifyOpts remoteOpts) = Except.ok (false, lvl)) :
    Verify parseReference verifier repo remoteOpts
      = verifyCore parseReference verifier repo remoteOpts (mkVerifyOpts remoteOpts) := by
  simp [Verify, hrem, hsk, hr]

theorem Verify_skip_error (parseReference : String → Except String String)
    (verifier : VerifierModel) (repo : RepoModel) (remoteOpts : RemoteVerifyOptions)
    (sk : VerifyOptions → Except NErr (Bool × Option VerificationLevel)) (e : NErr)
    (hrem : repo.isRemote = true) (hsk : verifier.skipVerify = some sk)
    (hr : sk (mkVerifyOpts remoteOpts) = Except.error e) :
    Verify parseReference verifier repo remoteOpts
      = { desc := emptyDescriptor, outcomes := [], err := some e,
          processed := 0, events := [] } := by
  simp [Verify, hrem, hsk, hr]

theorem Verify_skip_true (parseReference : String → Except String String)
    (verifier : VerifierModel) (repo : RepoModel) (remoteOpts : RemoteVerifyOptions)
    (sk : VerifyOptions → Except NErr (Bool × Option VerificationLevel))
    (lvl : Option VerificationLevel)
    (hrem : repo.isRemote = true) (hsk : verifier.skipVerify = some sk)
    (hr : sk (mkVerifyOpts remoteOpts) = Except.ok (true, lvl)) :
    Verify parseReference verifier repo remoteOpts
      = { desc := emptyDescriptor
          outcomes := [some { rawSignature := []
                              envelopeContent := none
                              verificationLevel := lvl
                              verificationResults := []
                              error := none }]
          err := none
          processed := 0
          events := [] } := by
  simp [Verify, hrem, hsk, hr]

theorem Verify_not_remote (parseReference : String → Except String String)
    (verifier : VerifierModel) (repo : RepoModel) (remoteOpts : RemoteVerifyOptions)
    (hrem : repo.isRemote = false) :
    Verify parseReference verifier repo remoteOpts
      = { desc := emptyDescriptor, outcomes := [],
          err := some (NErr.generic "failed to verify: repo must be remote repository"),
          processed := 0, events := [] } := by
  simp [Verify, hrem]

theorem C2_max_signature_attempts_bound (parseReference : String → Except String String)
    (verifier : VerifierModel) (repo : RepoModel) (remoteOpts : RemoteVerifyOptions)
    (hmax : 0 < remoteOpts.maxSignatureAttempts) :
    fetchCount (Verify parseReference verifier repo remoteOpts).events
      = (Verify parseReference verifier repo remoteOpts).processed ∧
    verifyCount (Verify parseReference verifier repo remoteOpts).events
      ≤ (Verify parseReference verifier repo remoteOpts).processed ∧
    ((Verify parseReference verifier repo remoteOpts).processed : Int)
      ≤ remoteOpts.maxSignatureAttempts := by
  by_cases hrem : repo.isRemote = true
  · cases hsk : verifier.skipVerify with
    | none =>
      rw [Verify_skip_none parseReference verifier repo remoteOpts hrem hsk]
      exact verifyCore_inv parseReference verifier repo remoteOpts (mkVerifyOpts remoteOpts) hmax
    | some sk =>
      cases hskr : sk (mkVerifyOpts remoteOpts) with
      | error e =>
        rw [Verify_skip_error parseReference verifier repo remoteOpts sk e hrem hsk hskr]
        exact ⟨rfl, Nat.le_refl 0,
          by show ((0 : Nat) : Int) ≤ remoteOpts.maxSignatureAttempts; omega⟩
      | ok pair =>
        obtain ⟨skip, lvl⟩ := pair
        cases skip with
        | true =>
          rw [Verify_skip_true parseReference verifier repo remoteOpts sk lvl hrem hsk hskr]
          exact ⟨rfl, Nat.le_refl 0,
          by show ((0 : Nat) : Int) ≤ remoteOpts.maxSignatureAttempts; omega⟩
        | false =>
          rw [Verify_skip_false parseReference verifier repo remoteOpts sk lvl hrem hsk hskr]
          exact verifyCore_inv parseReference verifier repo remoteOpts (mkVerifyOpts remoteOpts) hmax
  · have hrem2 : repo.isRemote = false := by simpa using hrem
    rw [Verify_not_remote parseReference verifier repo remoteOpts hrem2]
    exact ⟨rfl, Nat.le_refl 0,
      by show ((0 : Nat) : Int) ≤ remoteOpts.maxSignatureAttempts; omega⟩

/-- The two events recorded for one processed signature. -/
def sigEvts (d : Descriptor) : List Event := [Event.fetchBlobEvt d, Event.verifyEvt d]

/-- Signature manifest d fails verification in context c: its blob fetch
succeeds and the verifier returns the non-nil outcome ocf d together with a
non-nil error, so the loop records the failure and continues. -/
def FailsVia (c : VCtx) (ocf : Descriptor → VerificationOutcome) (d : Descriptor) : Prop :=
  ∃ b sd e, c.repo.fetchSignatureBlob d = Except.ok (b, sd) ∧
    c.verifier.verify c.artifactDesc b { c.opts0 with signatureMediaType := sd.mediaType }
      = (some (ocf d), some e)

/-- One failed-signature update of the aggregated error. -/
def updStep (ocf : Descriptor → VerificationOutcome) (acc : NErr) (d : Descriptor) : NErr :=
  updateFailedErr acc (ocf d).error

theorem processItems_fail_prefix (c : VCtx) (ocf : Descriptor → VerificationOutcome) :
    ∀ (L rest : List Descriptor) (st : LoopState),
      (∀ d ∈ L, FailsVia c ocf d) →
      ((st.numProcessed : Int) + L.length ≤ c.maxAttempts) →
      ∃ st', processItems c st (L ++ rest) = processItems c st' rest ∧
        st'.numProcessed = st.numProcessed + L.length ∧
        st'.outcomes = st.outcomes ∧
        st'.failedErr = L.foldl (updStep ocf) st.failedErr ∧
        st'.events = st.events ++ L.flatMap sigEvts := by
  intro L
  induction L with
  | nil =>
    intro rest st _ _
    exact ⟨st, by rw [List.nil_append], by simp, rfl, rfl, by simp⟩
  | cons d L2 ih =>
    intro rest st hfail hbound
    obtain ⟨b, sd, e, hf, hv⟩ := hfail d (List.mem_cons_self _ _)
    have hlen : ((d :: L2).length : Int) = L2.length + 1 := by
      simp only [List.length_cons]
      push_cast
      ring
    have hmax : ¬ (c.maxAttempts ≤ (st.numProcessed : Int)) := by
      rw [hlen] at hbound
      omega
    obtain ⟨st', heq, hn, ho, hfe, hev⟩ := ih rest
      { numProcessed := st.numProcessed + 1
        outcomes := st.outcomes
        failedErr := updateFailedErr st.failedErr (ocf d).error
        events := st.events ++ sigEvts d }
      (fun x hx => hfail x (List.mem_cons_of_mem _ hx))
      (by
        rw [hlen] at hbound
        show ((st.numProcessed + 1 : Nat) : Int) + L2.length ≤ c.maxAttempts
        push_cast
        omega)
    have hn2 : st'.numProcessed = st.numProcessed + 1 + L2.length := hn
    have hfe2 : st'.failedErr = L2.foldl (updStep ocf) (updStep ocf st.failedErr d) := hfe
    have hev2 : st'.events = st.events ++ sigEvts d ++ L2.flatMap sigEvts := hev
    refine ⟨st', ?_, ?_, ho, ?_, ?_⟩
    · rw [List.cons_append]
      simp only [processItems, if_neg hmax, hf, hv]
      exact heq
    · rw [hn2]
      simp only [List.length_cons]
      omega
    · rw [hfe2, List.foldl_cons]
    · rw [hev2, List.flatMap_cons, List.append_assoc]

theorem processItems_success_step (c : VCtx) (d : Descriptor) (rest : List Descriptor)
    (st : LoopState) (b : Bytes) (sd : Descriptor) (oc? : Option VerificationOutcome)
    (hmax : (st.numProcessed : Int) < c.maxAttempts)
    (hf : c.repo.fetchSignatureBlob d = Except.ok (b, sd))
    (hv : c.verifier.verify c.artifactDesc b
      { c.opts0 with signatureMediaType := sd.mediaType } = (oc?, none)) :
    ∃ st', processItems c st (d :: rest) = (st', LoopExit.returned NErr.doneVerification) ∧
      st'.numProcessed = st.numProcessed + 1 ∧
      st'.outcomes = st.outcomes ++ [oc?] ∧
      st'.failedErr = st.failedErr ∧
      st'.events = st.events ++ sigEvts d := by
  have hm : ¬ (c.maxAttempts ≤ (st.numProcessed : Int)) := not_le.mpr hmax
  cases oc? with
  | none =>
    refine ⟨{ numProcessed := st.numProcessed + 1
              outcomes := st.outcomes ++ [none]
              failedErr := st.failedErr
              events := st.events ++ sigEvts d }, ?_, rfl, rfl, rfl, rfl⟩
    simp only [processItems, if_neg hm, hf, hv]
    rfl
  | some oc =>
    refine ⟨{ numProcessed := st.numProcessed + 1
              outcomes := st.outcomes ++ [some oc]
              failedErr := st.failedErr
              events := st.events ++ sigEvts d }, ?_, rfl, rfl, rfl, rfl⟩
    simp only [processItems, if_neg hm, hf, hv]
    rfl

theorem runPages_fail_pages (c : VCtx) (ocf : Descriptor → VerificationOutcome) :
    ∀ (A restPages : List (List Descriptor)) (st : LoopState),
      (∀ d ∈ A.flatten, FailsVia c ocf d) →
      ((st.numProcessed : Int) + A.flatten.length < c.maxAttempts) →
      ∃ st', runPages c st (A ++ restPages) = runPages c st' restPages ∧
        st'.numProcessed = st.numProcessed + A.flatten.length ∧
        st'.outcomes = st.outcomes ∧
        st'.failedErr = A.flatten.foldl (updStep ocf) st.failedErr ∧
        st'.events = st.events ++ A.flatten.flatMap sigEvts := by
  intro A
  induction A with
  | nil =>
    intro restPages st _ _
    exact ⟨st, by rw [List.nil_append], by simp, rfl, rfl, by simp⟩
  | cons p A2 ih =>
    intro restPages st hfail hbound
    have hflat : (p :: A2).flatten = p ++ A2.flatten := by simp
    have hmemp : ∀ d ∈ p, FailsVia c ocf d := by
      intro x hx
      exact hfail x (by rw [hflat]; exact List.mem_append_left _ hx)
    obtain ⟨st1, heq1, hn1, ho1, hfe1, hev1⟩ := processItems_fail_prefix c ocf p [] st hmemp
      (by
        rw [hflat] at hbound
        simp only [List.length_append] at hbound
        push_cast at hbound ⊢
        omega)
    rw [List.append_nil] at heq1
    have hfell : processItems c st p = (st1, LoopExit.fellThrough) := by
      rw [heq1]
      cases hpi : processItems c st1 [] with
      | mk a b2 =>
        simp only [processItems] at hpi
        exact hpi ▸ rfl
    have hlt1 : ¬ (c.maxAttempts ≤ (st1.numProcessed : Int)) := by
      rw [hn1]
      rw [hflat] at hbound
      simp only [List.length_append] at hbound
      push_cast at hbound ⊢
      omega
    obtain ⟨st', heq2, hn2, ho2, hfe2, hev2⟩ := ih restPages st1
      (fun x hx => hfail x (by rw [hflat]; exact List.mem_append_right _ hx))
      (by
        rw [hn1]
        rw [hflat] at hbound
        simp only [List.length_append] at hbound
        push_cast at hbound ⊢
        omega)
    refine ⟨st', ?_, ?_, ?_, ?_, ?_⟩
    · rw [List.cons_append]
      simp only [runPages, runCallback, hfell, if_neg hlt1]
      exact heq2
    · rw [hn2, hn1, hflat]
      simp only [List.length_append]
      omega
    · rw [ho2, ho1]
    · rw [hfe2, hfe1, hflat, List.foldl_append]
    · rw [hev2, hev1, hflat]
      simp [List.append_assoc]

theorem processItems_fail_limit (c : VCtx) (ocf : Descriptor → VerificationOutcome) :
    ∀ (L : List Descriptor) (st : LoopState),
      (∀ d ∈ L, FailsVia c ocf d) →
      ((st.numProcessed : Int) ≤ c.maxAttempts) →
      (c.maxAttempts ≤ (st.numProcessed : Int) + L.length) →
      ∃ st', processItems c st L = (st', LoopExit.fellThrough) ∧
        st'.outcomes = st.outcomes ∧
        ((st'.numProcessed : Int)) = c.maxAttempts := by
  intro L
  induction L with
  | nil =>
    intro st _ hle hge
    refine ⟨st, rfl, rfl, ?_⟩
    simp only [List.length_nil] at hge
    omega
  | cons d L2 ih =>
    intro st hfail hle hge
    by_cases hm : c.maxAttempts ≤ (st.numProcessed : Int)
    · refine ⟨st, ?_, rfl, by omega⟩
      simp only [processItems, if_pos hm]
    · obtain ⟨b, sd, e, hf, hv⟩ := hfail d (List.mem_cons_self _ _)
      obtain ⟨st', heq, ho, hn⟩ := ih
        { numProcessed := st.numProcessed + 1
          outcomes := st.outcomes
          failedErr := updateFailedErr st.failedErr (ocf d).error
          events := st.events ++ sigEvts d }
        (fun x hx => hfail x (List.mem_cons_of_mem _ hx))
        (by
          show ((st.numProcessed + 1 : Nat) : Int) ≤ c.maxAttempts
          push_cast
          omega)
        (by
          show c.maxAttempts ≤ ((st.numProcessed + 1 : Nat) : Int) + L2.length
          simp only [List.length_cons] at hge
          push_cast at hge ⊢
          omega)
      refine ⟨st', ?_, ho, hn⟩
      simp only [processItems, if_neg hm, hf, hv]
      exact heq

theorem runPages_all_fail_limit (c : VCtx) (ocf : Descriptor → VerificationOutcome) :
    ∀ (P : List (List Descriptor)) (st : LoopState),
      (∀ d ∈ P.flatten, FailsVia c ocf d) →
      ((st.numProcessed : Int) < c.maxAttempts) →
      (c.maxAttempts ≤ (st.numProcessed : Int) + P.flatten.length) →
      ∃ st', runPages c st P = (st', some (errExceededMaxVerificationLimit c.maxAttempts)) ∧
        st'.outcomes = st.outcomes ∧
        ((st'.numProcessed : Int)) = c.maxAttempts := by
  intro P
  induction P with
  | nil =>
    intro st _ hlt hge
    exfalso
    simp only [List.flatten_nil, List.length_nil] at hge
    omega
  | cons p P2 ih =>
    intro st hfail hlt hge
    have hflat : (p :: P2).flatten = p ++ P2.flatten := by simp
    have hmemp : ∀ d ∈ p, FailsVia c ocf d := fun x hx =>
      hfail x (by rw [hflat]; exact List.mem_append_left _ hx)
    by_cases hcase : c.maxAttempts ≤ (st.numProcessed : Int) + p.length
    · obtain ⟨st1, heq1, ho1, hn1⟩ := processItems_fail_limit c ocf p st hmemp (le_of_lt hlt) hcase
      refine ⟨st1, ?_, ho1, hn1⟩
      have hm1 : c.maxAttempts ≤ (st1.numProcessed : Int) := le_of_eq hn1.symm
      simp only [runPages, runCallback, heq1, if_pos hm1]
    · push_neg at hcase
      obtain ⟨st1, heq1, hn1, ho1, hfe1, hev1⟩ := processItems_fail_prefix c ocf p [] st hmemp
        (le_of_lt hcase)
      rw [List.append_nil] at heq1
      have hfell : processItems c st p = (st1, LoopExit.fellThrough) := by
        rw [heq1]
        rfl
      have hlt1 : (st1.numProcessed : Int) < c.maxAttempts := by
        rw [hn1]
        push_cast
        omega
      obtain ⟨st', heq2, ho2, hn2⟩ := ih st1
        (fun x hx => hfail x (by rw [hflat]; exact List.mem_append_right _ hx))
        hlt1
        (by
          rw [hn1]
          rw [hflat] at hge
          simp only [List.length_append] at hge
          push_cast at hge ⊢
          omega)
      refine ⟨st', ?_, by rw [ho2, ho1], hn2⟩
      simp only [runPages, runCallback, hfell, if_neg (not_le.mpr hlt1)]
      exact heq2

theorem runPages_empty_pages (c : VCtx) :
    ∀ (P : List (List Descriptor)) (st : LoopState),
      (∀ p ∈ P, p = ([] : List Descriptor)) →
      ((st.numProcessed : Int) < c.maxAttempts) →
      runPages c st P = (st, none) := by
  intro P
  induction P with
  | nil => intro st _ _; rfl
  | cons p ps ih =>
    intro st hemp hlt
    have hp : p = [] := hemp p (List.mem_cons_self _ _)
    subst hp
    simp only [runPages, runCallback, processItems, if_neg (not_le.mpr hlt)]
    exact ih st (fun x hx => hemp x (List.mem_cons_of_mem _ hx)) hlt

/-- Is this optional error an ErrorUserMetadataVerificationFailed? -/
def isUMErrOpt : Option NErr → Bool
  | some (NErr.userMetadataVerificationFailed _) => true
  | _ => false

/-- Is this error an ErrorUserMetadataVerificationFailed? -/
def isUMErr : NErr → Bool
  | NErr.userMetadataVerificationFailed _ => true
  | _ => false

theorem isUMErr_iff (e : NErr) :
    isUMErr e = true ↔ ∃ m, e = NErr.userMetadataVerificationFailed m := by
  cases e <;> simp [isUMErr]

theorem updateFailedErr_not_um (a : NErr) (x : Option NErr) (h : isUMErrOpt x = false) :
    updateFailedErr a x = a := by
  cases x with
  | none => rfl
  | some e => cases e <;> first | rfl | (exfalso; simp [isUMErrOpt] at h)

theorem updateFailedErr_um_kind (a : NErr) (x : Option NErr) (h : isUMErr a = true) :
    isUMErr (updateFailedErr a x) = true := by
  cases x with
  | none => exact h
  | some e => cases e <;> first | exact h | rfl

theorem updateFailedErr_of_um (a : NErr) (x : Option NErr) (h : isUMErrOpt x = true) :
    isUMErr (updateFailedErr a x) = true := by
  cases x with
  | none => simp [isUMErrOpt] at h
  | some e => cases e <;> first | rfl | simp [isUMErrOpt] at h

theorem foldl_upd_none (ocf : Descriptor → VerificationOutcome) :
    ∀ (L : List Descriptor) (a : NErr),
      (∀ d ∈ L, isUMErrOpt (ocf d).error = false) →
      L.foldl (updStep ocf) a = a := by
  intro L
  induction L with
  | nil => intro a _; rfl
  | cons d L2 ih =>
    intro a h
    rw [List.foldl_cons,
      show updStep ocf a d = a from
        updateFailedErr_not_um a (ocf d).error (h d (List.mem_cons_self _ _))]
    exact ih a (fun x hx => h x (List.mem_cons_of_mem _ hx))

theorem foldl_upd_um_preserve (ocf : Descriptor → VerificationOutcome) :
    ∀ (L : List Descriptor) (a : NErr),
      isUMErr a = true → isUMErr (L.foldl (updStep ocf) a) = true := by
  intro L
  induction L with
  | nil => intro a h; exact h
  | cons d L2 ih =>
    intro a h
    rw [List.foldl_cons]
    exact ih _ (updateFailedErr_um_kind a (ocf d).error h)

theorem foldl_upd_um (ocf : Descriptor → VerificationOutcome) :
    ∀ (L : List Descriptor) (a : NErr),
      (∃ d ∈ L, isUMErrOpt (ocf d).error = true) →
      isUMErr (L.foldl (updStep ocf) a) = true := by
  intro L
  induction L with
  | nil =>
    intro a h
    rcases h with ⟨d, hd, _⟩
    exact absurd hd (List.not_mem_nil d)
  | cons d L2 ih =>
    intro a h
    rw [List.foldl_cons]
    rcases h with ⟨x, hx, hum⟩
    rcases List.mem_cons.mp hx with hh | ht
    · subst hh
      exact foldl_upd_um_preserve ocf L2 _ (updateFailedErr_of_um a (ocf x).error hum)
    · exact ih _ ⟨x, ht, hum⟩

/-- C9: when the verifier's SkipVerify reports the skip level, notation.Verify
returns immediately with a nil error and a single outcome whose only
populated field is the verification level, without resolving the artifact
reference, fetching any signature, or calling the verifier — for every
RemoteVerifyOptions, including MaxSignatureAttempts ≤ 0. -/
theorem C9_skip_level_returns_immediately (parseReference : String → Except String String)
    (verifier : VerifierModel) (repo : RepoModel) (remoteOpts : RemoteVerifyOptions)
    (sk : VerifyOptions → Except NErr (Bool × Option VerificationLevel))
    (lvl : Option VerificationLevel)
    (hrem : repo.isRemote = true) (hsk : verifier.skipVerify = some sk)
    (hr : sk (mkVerifyOpts remoteOpts) = Except.ok (true, lvl)) :
    Verify parseReference verifier repo remoteOpts
      = { desc := emptyDescriptor
          outcomes := [some { rawSignature := []
                              envelopeContent := none
                              verificationLevel := lvl
                              verificationResults := []
                              error := none }]
          err := none
          processed := 0
          events := [] } :=
  Verify_skip_true parseReference verifier repo remoteOpts sk lvl hrem hsk hr

/-- Concrete verification level used in the C9 witness. -/
def c9Level : VerificationLevel := { name := "skip" }

/-- Concrete verifier whose SkipVerify reports skip, for the C9 witness. -/
def c9Verifier : VerifierModel :=
  { skipVerify := some (fun _ => Except.ok (true, some c9Level))
    verify := fun _ _ _ => (none, some (NErr.verificationFailed "should not be called")) }

/-- Concrete remote repository with one referrers page, for the C9 witness. -/
def c9Repo : RepoModel :=
  { isRemote := true
    resolve := fun _ => Except.ok emptyDescriptor
    pages := [[{ mediaType := mediaTypeImageManifest, digestStr := "sha256:sig1", size := 1,
                 annotations := [] }]]
    fetchSignatureBlob := fun _ => Except.error "should not be called" }

/-- Concrete options with a non-positive MaxSignatureAttempts, for the C9
witness. -/
def c9Opts : RemoteVerifyOptions :=
  { artifactReference := "registry.io/app:v1", pluginConfig := [],
    maxSignatureAttempts := -3, userMetadata := [] }

/-- C9 witness: the skip short-circuit evaluated on a concrete world whose
MaxSignatureAttempts is negative. -/
theorem C9_skip_level_returns_immediately_witness :
    Verify (fun _ => Except.ok "v1") c9Verifier c9Repo c9Opts
      = { desc := emptyDescriptor
          outcomes := [some { rawSignature := []
                              envelopeContent := none
                              verificationLevel := some c9Level
                              verificationResults := []
                              error := none }]
          err := none
          processed := 0
          events := [] } :=
  C9_skip_level_returns_immediately (fun _ => Except.ok "v1") c9Verifier c9Repo c9Opts
    (fun _ => Except.ok (true, some c9Level)) (some c9Level) rfl rfl rfl

/-- Verification is not skipped: the verifier either does not implement the
skipVerifier interface or its SkipVerify reports a non-skip level. -/
def SkipPasses (verifier : VerifierModel) (opts0 : VerifyOptions) : Prop :=
  verifier.skipVerify = none ∨
  ∃ sk lvl, verifier.skipVerify = some sk ∧ sk opts0 = Except.ok (false, lvl)

theorem Verify_eq_core (parseReference : String → Except String String)
    (verifier : VerifierModel) (repo : RepoModel) (remoteOpts : RemoteVerifyOptions)
    (hrem : repo.isRemote = true)
    (hskip : SkipPasses verifier (mkVerifyOpts remoteOpts)) :
    Verify parseReference verifier repo remoteOpts
      = verifyCore parseReference verifier repo remoteOpts (mkVerifyOpts remoteOpts) := by
  rcases hskip with h | ⟨sk, lvl, h1, h2⟩
  · exact Verify_skip_none parseReference verifier repo remoteOpts hrem h
  · exact Verify_skip_false parseReference verifier repo remoteOpts sk lvl hrem h1 h2

/-- C1: when the delivered signature manifests decompose as a failing prefix
(the pages A and the page prefix B1, every element of which fetches
successfully and fails verification with a non-nil outcome) followed by the
first successfully verifying signature dS, notation.Verify processes exactly
that prefix plus dS in delivery order, stops fetching afterwards (nothing of
B2 or the pages C is touched), and returns the resolved artifact descriptor,
an outcome list holding exactly the successful outcome, and a nil error. In
particular, with three signatures of which only the second verifies, exactly
two are processed. -/
theorem C1_first_success_short_circuit (parseReference : String → Except String String)
    (verifier : VerifierModel) (repo : RepoModel) (remoteOpts : RemoteVerifyOptions)
    (ocf : Descriptor → VerificationOutcome)
    (A : List (List Descriptor)) (B1 B2 : List Descriptor) (dS : Descriptor)
    (C2 : List (List Descriptor)) (artifactDesc : Descriptor) (refRef : String)
    (b : Bytes) (sd : Descriptor) (oc? : Option VerificationOutcome)
    (hrem : repo.isRemote = true)
    (hskip : SkipPasses verifier (mkVerifyOpts remoteOpts))
    (hmax : 0 < remoteOpts.maxSignatureAttempts)
    (hparse : parseReference remoteOpts.artifactReference = Except.ok refRef)
    (hrr : refRef ≠ "")
    (hres : repo.resolve remoteOpts.artifactReference = Except.ok artifactDesc)
    (hpages : repo.pages = A ++ (B1 ++ dS :: B2) :: C2)
    (hk : ((A.flatten.length + B1.length + 1 : Nat) : Int) ≤ remoteOpts.maxSignatureAttempts)
    (hfails : ∀ d ∈ A.flatten ++ B1,
      FailsVia (mkVCtx verifier repo remoteOpts (mkVerifyOpts remoteOpts) artifactDesc) ocf d)
    (hfS : repo.fetchSignatureBlob dS = Except.ok (b, sd))
    (hvS : verifier.verify artifactDesc b
      { mkVerifyOpts remoteOpts with signatureMediaType := sd.mediaType } = (oc?, none)) :
    Verify parseReference verifier repo remoteOpts
      = { desc := artifactDesc
          outcomes := [oc?]
          err := none
          processed := A.flatten.length + B1.length + 1
          events := Event.resolveEvt remoteOpts.artifactReference ::
            ((A.flatten ++ B1).flatMap sigEvts ++ sigEvts dS) } := by
  rw [Verify_eq_core parseReference verifier repo remoteOpts hrem hskip]
  have hm0 : ¬ remoteOpts.maxSignatureAttempts ≤ 0 := not_le.mpr hmax
  simp only [verifyCore, if_neg hm0, hparse, if_neg hrr, hres]
  rw [hpages]
  have hkc : ((A.flatten.length : Int) + B1.length + 1) ≤ remoteOpts.maxSignatureAttempts := by
    push_cast at hk
    omega
  obtain ⟨st1, heqA, hn1, ho1, hfe1, hev1⟩ := runPages_fail_pages
    (mkVCtx verifier repo remoteOpts (mkVerifyOpts remoteOpts) artifactDesc) ocf
    A ((B1 ++ dS :: B2) :: C2) (initLoopState remoteOpts)
    (fun d hd => hfails d (List.mem_append_left _ hd))
    (by
      show ((0 : Nat) : Int) + A.flatten.length < remoteOpts.maxSignatureAttempts
      push_cast
      omega)
  have hn1b : st1.numProcessed = 0 + A.flatten.length := hn1
  have ho1b : st1.outcomes = ([] : List (Option VerificationOutcome)) := ho1
  have hev1b : st1.events
      = [Event.resolveEvt remoteOpts.artifactReference] ++ A.flatten.flatMap sigEvts := hev1
  obtain ⟨st2, heqB, hn2, ho2, hfe2, hev2⟩ := processItems_fail_prefix
    (mkVCtx verifier repo remoteOpts (mkVerifyOpts remoteOpts) artifactDesc) ocf
    B1 (dS :: B2) st1
    (fun d hd => hfails d (List.mem_append_right _ hd))
    (by
      show (st1.numProcessed : Int) + B1.length ≤ remoteOpts.maxSignatureAttempts
      rw [hn1b]
      push_cast
      omega)
  obtain ⟨st3, heqS, hn3, ho3, hfe3, hev3⟩ := processItems_success_step
    (mkVCtx verifier repo remoteOpts (mkVerifyOpts remoteOpts) artifactDesc)
    dS B2 st2 b sd oc?
    (by
      show (st2.numProcessed : Int) < remoteOpts.maxSignatureAttempts
      rw [hn2, hn1b]
      push_cast
      omega)
    hfS hvS
  have hpage : processItems (mkVCtx verifier repo remoteOpts (mkVerifyOpts remoteOpts) artifactDesc)
      st1 (B1 ++ dS :: B2) = (st3, LoopExit.returned NErr.doneVerification) := by
    rw [heqB, heqS]
  have hcb : runCallback (mkVCtx verifier repo remoteOpts (mkVerifyOpts remoteOpts) artifactDesc)
      st1 (B1 ++ dS :: B2) = (st3, some NErr.doneVerification) := by
    simp only [runCallback, hpage]
  have hrp : runPages (mkVCtx verifier repo remoteOpts (mkVerifyOpts remoteOpts) artifactDesc)
      st1 ((B1 ++ dS :: B2) :: C2) = (st3, some NErr.doneVerification) := by
    simp only [runPages, hcb]
  rw [heqA]
  simp only [hrp, if_pos rfl]
  have hnum : st3.numProcessed = A.flatten.length + B1.length + 1 := by
    rw [hn3, hn2, hn1b]
    omega
  have houts : st3.outcomes = [oc?] := by
    rw [ho3, ho2, ho1b]
    rfl
  have hevs : st3.events = Event.resolveEvt remoteOpts.artifactReference ::
      ((A.flatten ++ B1).flatMap sigEvts ++ sigEvts dS) := by
    rw [hev3, hev2, hev1b]
    simp [List.flatMap_append, List.append_assoc]
  have hnz : ¬ (st3.numProcessed = 0) := by
    rw [hnum]
    omega
  have hne : ¬ (st3.outcomes = []) := by
    rw [houts]
    simp
  simp only [if_true]
  simp only [finishVerify, if_neg hnz, if_neg hne]
  simp only [VerifyFinal.mk.injEq]
  exact ⟨trivial, houts, trivial, hnum, hevs⟩

/-- Artifact descriptor for the C1 witness scenario. -/
def c1Desc : Descriptor :=
  { mediaType := mediaTypeImageManifest, digestStr := "sha256:target", size := 9,
    annotations := [] }

/-- First signature manifest (fails verification) in the C1 witness. -/
def c1d1 : Descriptor :=
  { mediaType := mediaTypeImageManifest, digestStr := "sha256:sig1", size := 1,
    annotations := [] }

/-- Second signature manifest (the first success) in the C1 witness. -/
def c1d2 : Descriptor :=
  { mediaType := mediaTypeImageManifest, digestStr := "sha256:sig2", size := 2,
    annotations := [] }

/-- Third signature manifest (never reached) in the C1 witness. -/
def c1d3 : Descriptor :=
  { mediaType := mediaTypeImageManifest, digestStr := "sha256:sig3", size := 3,
    annotations := [] }

/-- Outcome the verifier returns for failing signatures in the C1 witness. -/
def c1OutcomeFail : VerificationOutcome :=
  { rawSignature := [1], envelopeContent := none, verificationLevel := none,
    verificationResults := [], error := some (NErr.verificationFailed "signature failed") }

/-- Outcome the verifier returns for the successful signature in the C1
witness. -/
def c1OutcomeOk : VerificationOutcome :=
  { rawSignature := [2], envelopeContent := some "payload", verificationLevel := none,
    verificationResults := [], error := none }

/-- Verifier for the C1 witness: only the blob [2] (the second signature)
verifies. -/
def c1Verifier : VerifierModel :=
  { skipVerify := none
    verify := fun _ blob _ =>
      if blob = [2] then (some c1OutcomeOk, none)
      else (some c1OutcomeFail, some (NErr.verificationFailed "signature failed")) }

/-- Repository for the C1 witness: one page with three signature manifests,
each blob being the manifest's size as a single byte. -/
def c1Repo : RepoModel :=
  { isRemote := true
    resolve := fun _ => Except.ok c1Desc
    pages := [[c1d1, c1d2, c1d3]]
    fetchSignatureBlob := fun d => Except.ok ([d.size.toNat], d) }

/-- Options for the C1 witness. -/
def c1Opts : RemoteVerifyOptions :=
  { artifactReference := "registry.io/app:v1", pluginConfig := [],
    maxSignatureAttempts := 50, userMetadata := [] }

/-- C1 witness: three signatures of which only the second verifies — exactly
two are fetched and verified, the successful outcome is the only one
returned, and the error is nil. -/
theorem C1_first_success_short_circuit_witness :
    Verify (fun _ => Except.ok "v1") c1Verifier c1Repo c1Opts
      = { desc := c1Desc
          outcomes := [some c1OutcomeOk]
          err := none
          processed := 2
          events := [Event.resolveEvt "registry.io/app:v1",
            Event.fetchBlobEvt c1d1, Event.verifyEvt c1d1,
            Event.fetchBlobEvt c1d2, Event.verifyEvt c1d2] } := by
  have h := C1_first_success_short_circuit (fun _ => Except.ok "v1") c1Verifier c1Repo c1Opts
    (fun _ => c1OutcomeFail) [] [c1d1] [c1d3] c1d2 [] c1Desc "v1" [2] c1d2 (some c1OutcomeOk)
    rfl (Or.inl rfl) (by decide) rfl (by decide) rfl rfl (by decide)
    (by
      intro d hd
      have : d = c1d1 := by simpa using hd
      subst this
      exact ⟨[1], c1d1, NErr.verificationFailed "signature failed", rfl, rfl⟩)
    rfl rfl
  exact h

/-- C10: when every delivered signature fails verification (with a non-nil
outcome) and at least MaxSignatureAttempts signatures are delivered,
notation.Verify processes exactly MaxSignatureAttempts signatures and
returns the max-signature-limit error together with the collected (empty)
outcome list — also when the listing holds exactly MaxSignatureAttempts
signatures and no further referrer exists — rather than the generic
aggregated verification-failed error. -/
theorem C10_exceeded_max_limit_error (parseReference : String → Except String String)
    (verifier : VerifierModel) (repo : RepoModel) (remoteOpts : RemoteVerifyOptions)
    (ocf : Descriptor → VerificationOutcome) (refRef : String) (artifactDesc : Descriptor)
    (hrem : repo.isRemote = true)
    (hskip : SkipPasses verifier (mkVerifyOpts remoteOpts))
    (hmax : 0 < remoteOpts.maxSignatureAttempts)
    (hparse : parseReference remoteOpts.artifactReference = Except.ok refRef)
    (hrr : refRef ≠ "")
    (hres : repo.resolve remoteOpts.artifactReference = Except.ok artifactDesc)
    (hfails : ∀ d ∈ repo.pages.flatten,
      FailsVia (mkVCtx verifier repo remoteOpts (mkVerifyOpts remoteOpts) artifactDesc) ocf d)
    (hcount : remoteOpts.maxSignatureAttempts ≤ (repo.pages.flatten.length : Int)) :
    (Verify parseReference verifier repo remoteOpts).err
      = some (errExceededMaxVerificationLimit remoteOpts.maxSignatureAttempts) ∧
    (Verify parseReference verifier repo remoteOpts).outcomes = [] ∧
    (((Verify parseReference verifier repo remoteOpts).processed : Int)
      = remoteOpts.maxSignatureAttempts) ∧
    (Verify parseReference verifier repo remoteOpts).desc = emptyDescriptor := by
  rw [Verify_eq_core parseReference verifier repo remoteOpts hrem hskip]
  have hm0 : ¬ remoteOpts.maxSignatureAttempts ≤ 0 := not_le.mpr hmax
  simp only [verifyCore, if_neg hm0, hparse, if_neg hrr, hres]
  obtain ⟨st', heq, ho, hn⟩ := runPages_all_fail_limit
    (mkVCtx verifier repo remoteOpts (mkVerifyOpts remoteOpts) artifactDesc) ocf
    repo.pages (initLoopState remoteOpts) hfails
    (by
      show ((0 : Nat) : Int) < remoteOpts.maxSignatureAttempts
      omega)
    (by
      show remoteOpts.maxSignatureAttempts ≤ ((0 : Nat) : Int) + repo.pages.flatten.length
      omega)
  have hdone : ¬ (errExceededMaxVerificationLimit remoteOpts.maxSignatureAttempts
      = NErr.doneVerification) := by
    simp [errExceededMaxVerificationLimit]
  have ho2 : st'.outcomes = [] := ho
  have hproj : (mkVCtx verifier repo remoteOpts (mkVerifyOpts remoteOpts)
      artifactDesc).maxAttempts = remoteOpts.maxSignatureAttempts := rfl
  have hn2 : (st'.numProcessed : Int) = remoteOpts.maxSignatureAttempts := hn
  simp only [heq, hproj, if_neg hdone, if_pos rfl, if_true]
  exact ⟨trivial, ho2, hn2, trivial⟩

/-- Outcome the verifier returns for every signature in the C10 witness. -/
def c10OutcomeFail : VerificationOutcome :=
  { rawSignature := [7], envelopeContent := none, verificationLevel := none,
    verificationResults := [], error := some (NErr.verificationFailed "signature failed") }

/-- Verifier for the C10 witness: every signature fails verification. -/
def c10Verifier : VerifierModel :=
  { skipVerify := none
    verify := fun _ _ _ => (some c10OutcomeFail, some (NErr.verificationFailed "signature failed")) }

/-- Two signature manifests for the C10 witness. -/
def c10d1 : Descriptor :=
  { mediaType := mediaTypeImageManifest, digestStr := "sha256:siga", size := 1, annotations := [] }

/-- Second signature manifest for the C10 witness. -/
def c10d2 : Descriptor :=
  { mediaType := mediaTypeImageManifest, digestStr := "sha256:sigb", size := 2, annotations := [] }

/-- Repository for the C10 witness: exactly two signatures, no further
referrers. -/
def c10Repo : RepoModel :=
  { isRemote := true
    resolve := fun _ => Except.ok c1Desc
    pages := [[c10d1, c10d2]]
    fetchSignatureBlob := fun d => Except.ok ([7], d) }

/-- Options for the C10 witness: MaxSignatureAttempts equal to the number of
delivered signatures. -/
def c10Opts : RemoteVerifyOptions :=
  { artifactReference := "registry.io/app:v1", pluginConfig := [],
    maxSignatureAttempts := 2, userMetadata := [] }

/-- C10 witness: two failing signatures with MaxSignatureAttempts = 2 yield
the max-signature-limit error with empty outcomes and exactly two processed
signatures. -/
theorem C10_exceeded_max_limit_error_witness :
    (Verify (fun _ => Except.ok "v1") c10Verifier c10Repo c10Opts).err
      = some (errExceededMaxVerificationLimit 2) ∧
    (Verify (fun _ => Except.ok "v1") c10Verifier c10Repo c10Opts).outcomes = [] ∧
    (((Verify (fun _ => Except.ok "v1") c10Verifier c10Repo c10Opts).processed : Int) = 2) ∧
    (Verify (fun _ => Except.ok "v1") c10Verifier c10Repo c10Opts).desc = emptyDescriptor := by
  have h := C10_exceeded_max_limit_error (fun _ => Except.ok "v1") c10Verifier c10Repo c10Opts
    (fun _ => c10OutcomeFail) "v1" c1Desc
    rfl (Or.inl rfl) (by decide) rfl (by decide) rfl
    (by
      intro d hd
      exact ⟨[7], d, NErr.verificationFailed "signature failed", rfl, rfl⟩)
    (by decide)
  exact h

/-- Outcome carrying a user-metadata verification failure, used by the C3
counterexample and witness. -/
def c3Outcome : VerificationOutcome :=
  { rawSignature := [5], envelopeContent := none, verificationLevel := none,
    verificationResults := [],
    error := some (NErr.userMetadataVerificationFailed "missing metadata") }

/-- Verifier for the C3 scenarios: every signature fails verification with an
outcome carrying ErrorUserMetadataVerificationFailed. -/
def c3Verifier : VerifierModel :=
  { skipVerify := none
    verify := fun _ _ _ => (some c3Outcome, some (NErr.verificationFailed "verification failed")) }

/-- Signature manifest for the C3 scenarios. -/
def c3d1 : Descriptor :=
  { mediaType := mediaTypeImageManifest, digestStr := "sha256:sigc", size := 1, annotations := [] }

/-- Repository for the C3 counterexample: one failing signature. -/
def c3Repo : RepoModel :=
  { isRemote := true
    resolve := fun _ => Except.ok c1Desc
    pages := [[c3d1]]
    fetchSignatureBlob := fun d => Except.ok ([5], d) }

/-- Options for the C3 counterexample: MaxSignatureAttempts = 1, equal to the
number of processed signatures. -/
def c3Opts : RemoteVerifyOptions :=
  { artifactReference := "registry.io/app:v1", pluginConfig := [],
    maxSignatureAttempts := 1, userMetadata := [] }

/-- C3 counterexample: one processed signature whose outcome carries
ErrorUserMetadataVerificationFailed, none verifying — yet the returned error
is the max-signature-limit error, not the userMetadataVerificationFailed
error, because exactly MaxSignatureAttempts signatures were processed. -/
theorem C3_counterexample :
    (Verify (fun _ => Except.ok "v1") c3Verifier c3Repo c3Opts).err
      = some (NErr.verificationFailed
          "total number of signatures associated with an artifact should be less than: 1") ∧
    (Verify (fun _ => Except.ok "v1") c3Verifier c3Repo c3Opts).err
      ≠ some (NErr.userMetadataVerificationFailed "missing metadata") ∧
    c3Outcome.error = some (NErr.userMetadataVerificationFailed "missing metadata") ∧
    (Verify (fun _ => Except.ok "v1") c3Verifier c3Repo c3Opts).processed = 1 := by
  refine ⟨by decide, by decide, rfl, by decide⟩

/-- C3 (amended): in the non-skip path, if no signature manifest is delivered
the call fails with the signature-not-found retrieval error; if at least one
signature is processed, none verifies, and fewer than MaxSignatureAttempts
signatures are processed, the call fails with the aggregated verification
error, which is the (last observed) userMetadataVerificationFailed error
whenever some processed outcome carried one and the zero-value aggregated
error when none did; if instead MaxSignatureAttempts signatures are
processed, the call fails with the max-signature-limit error. -/
theorem C3_aggregated_error_selection (parseReference : String → Except String String)
    (verifier : VerifierModel) (repo : RepoModel) (remoteOpts : RemoteVerifyOptions)
    (ocf : Descriptor → VerificationOutcome) (refRef : String) (artifactDesc : Descriptor)
    (hrem : repo.isRemote = true)
    (hskip : SkipPasses verifier (mkVerifyOpts remoteOpts))
    (hmax : 0 < remoteOpts.maxSignatureAttempts)
    (hparse : parseReference remoteOpts.artifactReference = Except.ok refRef)
    (hrr : refRef ≠ "")
    (hres : repo.resolve remoteOpts.artifactReference = Except.ok artifactDesc) :
    ((∀ p ∈ repo.pages, p = ([] : List Descriptor)) →
      (Verify parseReference verifier repo remoteOpts).err
        = some (NErr.signatureRetrievalFailed ("no signature is associated with \"" ++
            remoteOpts.artifactReference ++ "\", make sure the image was signed successfully")) ∧
      (Verify parseReference verifier repo remoteOpts).outcomes = [] ∧
      (Verify parseReference verifier repo remoteOpts).processed = 0) ∧
    ((∀ d ∈ repo.pages.flatten,
        FailsVia (mkVCtx verifier repo remoteOpts (mkVerifyOpts remoteOpts) artifactDesc) ocf d) →
      1 ≤ repo.pages.flatten.length →
      ((repo.pages.flatten.length : Int) < remoteOpts.maxSignatureAttempts) →
      (Verify parseReference verifier repo remoteOpts).err
        = some (repo.pages.flatten.foldl (updStep ocf) (NErr.verificationFailed "")) ∧
      (Verify parseReference verifier repo remoteOpts).outcomes = [] ∧
      ((∃ d ∈ repo.pages.flatten, isUMErrOpt (ocf d).error = true) →
        ∃ m, (Verify parseReference verifier repo remoteOpts).err
          = some (NErr.userMetadataVerificationFailed m)) ∧
      ((∀ d ∈ repo.pages.flatten, isUMErrOpt (ocf d).error = false) →
        (Verify parseReference verifier repo remoteOpts).err
          = some (NErr.verificationFailed ""))) ∧
    ((∀ d ∈ repo.pages.flatten,
        FailsVia (mkVCtx verifier repo remoteOpts (mkVerifyOpts remoteOpts) artifactDesc) ocf d) →
      remoteOpts.maxSignatureAttempts ≤ (repo.pages.flatten.length : Int) →
      (Verify parseReference verifier repo remoteOpts).err
        = some (errExceededMaxVerificationLimit remoteOpts.maxSignatureAttempts)) := by
  rw [Verify_eq_core parseReference verifier repo remoteOpts hrem hskip]
  have hm0 : ¬ remoteOpts.maxSignatureAttempts ≤ 0 := not_le.mpr hmax
  refine ⟨?_, ?_, ?_⟩
  · intro hemp
    simp only [verifyCore, if_neg hm0, hparse, if_neg hrr, hres]
    have hrun := runPages_empty_pages
      (mkVCtx verifier repo remoteOpts (mkVerifyOpts remoteOpts) artifactDesc)
      repo.pages (initLoopState remoteOpts) hemp
      (by
        show ((0 : Nat) : Int) < remoteOpts.maxSignatureAttempts
        omega)
    simp only [hrun]
    simp only [finishVerify, if_pos (show (initLoopState remoteOpts).numProcessed = 0 from rfl)]
    exact ⟨trivial, trivial, rfl⟩
  · intro hfails hlen hlt
    simp only [verifyCore, if_neg hm0, hparse, if_neg hrr, hres]
    obtain ⟨st', heqA, hn1, ho1, hfe1, hev1⟩ := runPages_fail_pages
      (mkVCtx verifier repo remoteOpts (mkVerifyOpts remoteOpts) artifactDesc) ocf
      repo.pages [] (initLoopState remoteOpts) hfails
      (by
        show ((0 : Nat) : Int) + repo.pages.flatten.length < remoteOpts.maxSignatureAttempts
        push_cast
        omega)
    rw [List.append_nil] at heqA
    have hrun : runPages (mkVCtx verifier repo remoteOpts (mkVerifyOpts remoteOpts) artifactDesc)
        (initLoopState remoteOpts) repo.pages = (st', none) := by
      rw [heqA]
      rfl
    have hn1b : st'.numProcessed = 0 + repo.pages.flatten.length := hn1
    have ho1b : st'.outcomes = [] := ho1
    have hfe1b : st'.failedErr
        = repo.pages.flatten.foldl (updStep ocf) (NErr.verificationFailed "") := hfe1
    have hnz : ¬ (st'.numProcessed = 0) := by
      rw [hn1b]
      omega
    simp only [hrun]
    simp only [finishVerify, if_neg hnz, if_pos ho1b]
    refine ⟨by rw [hfe1b], ho1b, ?_, ?_⟩
    · intro hex
      have hum := foldl_upd_um ocf repo.pages.flatten (NErr.verificationFailed "") hex
      rcases (isUMErr_iff _).mp hum with ⟨m, hm⟩
      exact ⟨m, by rw [hfe1b, hm]⟩
    · intro hnone
      rw [hfe1b, foldl_upd_none ocf repo.pages.flatten (NErr.verificationFailed "") hnone]
  · intro hfails hcount
    simp only [verifyCore, if_neg hm0, hparse, if_neg hrr, hres]
    obtain ⟨st', heq, ho, hn⟩ := runPages_all_fail_limit
      (mkVCtx verifier repo remoteOpts (mkVerifyOpts remoteOpts) artifactDesc) ocf
      repo.pages (initLoopState remoteOpts) hfails
      (by
        show ((0 : Nat) : Int) < remoteOpts.maxSignatureAttempts
        omega)
      (by
        show remoteOpts.maxSignatureAttempts ≤ ((0 : Nat) : Int) + repo.pages.flatten.length
        omega)
    have hdone : ¬ (errExceededMaxVerificationLimit remoteOpts.maxSignatureAttempts
        = NErr.doneVerification) := by
      simp [errExceededMaxVerificationLimit]
    have hproj : (mkVCtx verifier repo remoteOpts (mkVerifyOpts remoteOpts)
        artifactDesc).maxAttempts = remoteOpts.maxSignatureAttempts := rfl
    simp only [heq, hproj, if_neg hdone, if_pos rfl, if_true]

/-- Repository delivering one empty referrers page, for the C3 witness. -/
def c3EmptyRepo : RepoModel := { c3Repo with pages := [[]] }

/-- Options with room for more attempts, for the C3 witness. -/
def c3Opts5 : RemoteVerifyOptions := { c3Opts with maxSignatureAttempts := 5 }

/-- C3 witness: with no delivered referrer the call fails with the
signature-not-found error; with one failing signature below the attempt
limit the aggregated error is the observed userMetadataVerificationFailed
error; with the limit reached the max-signature-limit error is returned. -/
theorem C3_aggregated_error_selection_witness :
    (Verify (fun _ => Except.ok "v1") c3Verifier c3EmptyRepo c3Opts).err
      = some (NErr.signatureRetrievalFailed
          "no signature is associated with \"registry.io/app:v1\", make sure the image was signed successfully") ∧
    (Verify (fun _ => Except.ok "v1") c3Verifier c3Repo c3Opts5).err
      = some (NErr.userMetadataVerificationFailed "missing metadata") ∧
    (Verify (fun _ => Except.ok "v1") c3Verifier c3Repo c3Opts).err
      = some (errExceededMaxVerificationLimit 1) := by
  refine ⟨?_, ?_, ?_⟩
  · have h := (C3_aggregated_error_selection (fun _ => Except.ok "v1") c3Verifier c3EmptyRepo
      c3Opts (fun _ => c3Outcome) "v1" c1Desc rfl (Or.inl rfl) (by decide) rfl (by decide)
      rfl).1 (by decide)
    exact h.1
  · have h := (C3_aggregated_error_selection (fun _ => Except.ok "v1") c3Verifier c3Repo
      c3Opts5 (fun _ => c3Outcome) "v1" c1Desc rfl (Or.inl rfl) (by decide) rfl (by decide)
      rfl).2.1
      (by
        intro d hd
        exact ⟨[5], d, NErr.verificationFailed "verification failed", rfl, rfl⟩)
      (by decide) (by decide)
    exact h.1
  · exact (C3_aggregated_error_selection (fun _ => Except.ok "v1") c3Verifier c3Repo
      c3Opts (fun _ => c3Outcome) "v1" c1Desc rfl (Or.inl rfl) (by decide) rfl (by decide)
      rfl).2.2
      (by
        intro d hd
        exact ⟨[5], d, NErr.verificationFailed "verification failed", rfl, rfl⟩)
      (by decide)

/-- C2 witness: the fetch/verify call bounds evaluated on the concrete world
with two delivered signatures and MaxSignatureAttempts = 2. -/
theorem C2_max_signature_attempts_bound_witness :
    fetchCount (Verify (fun _ => Except.ok "v1") c10Verifier c10Repo c10Opts).events
      = (Verify (fun _ => Except.ok "v1") c10Verifier c10Repo c10Opts).processed ∧
    verifyCount (Verify (fun _ => Except.ok "v1") c10Verifier c10Repo c10Opts).events
      ≤ (Verify (fun _ => Except.ok "v1") c10Verifier c10Repo c10Opts).processed ∧
    (((Verify (fun _ => Except.ok "v1") c10Verifier c10Repo c10Opts).processed : Int)
      ≤ c10Opts.maxSignatureAttempts) :=
  C2_max_signature_attempts_bound (fun _ => Except.ok "v1") c10Verifier c10Repo c10Opts
    (by decide)

end Notary

